import Mathlib

/-!
Verification development for the OBD trip-diagnostics engine
(`processamento.py`, `modulos/utilitarios.py`, `modulos/fuellvl.py`,
`modulos/spkdur.py`, `modulos/resumo_geral.py`, `modulos/analise_completa.py`).

Modelling conventions (a shallow embedding over exact rationals):
* Python/NumPy floats are idealized as `ℚ`; float `NaN` produced by pandas
  reductions over an empty series, and Python `None`, are both modelled as
  `Option.none` (the spec calls both "null").
* A pandas `Series`/`DataFrame` cell is a `Celula`: a missing value (`NaN`),
  a string, or a number.  A `DataFrame` is an association list from column
  name to cell list (`Tabela`).
* `round(x, 2)` is Python's round-half-to-even, embedded exactly on `ℚ`.
* A standard deviation is an irrational square root, so the embedding keeps
  the (rational) *square* of pandas `Series.std`; a field of the summary is
  `none` exactly when pandas would produce `NaN`/`None` for the deviation,
  which is all the claims need.
-/

unseal Rat.add Rat.sub Rat.mul Rat.inv Rat.ofScientific

/-- Python's `round` to an integer: round half to even (banker's rounding),
which is also NumPy's rounding mode. -/
def roundHalfEven (x : ℚ) : ℤ :=
  let f : ℤ := ⌊x⌋
  let r : ℚ := x - (f : ℚ)
  if r < 1/2 then f
  else if 1/2 < r then f + 1
  else if f % 2 = 0 then f else f + 1

/-- Python's `round(x, 2)` over the rational idealization of floats. -/
def pyRound2 (x : ℚ) : ℚ := ((roundHalfEven (x * 100) : ℤ) : ℚ) / 100

/-- pandas `Series.mean()` of a non-empty numeric series (callers guard
emptiness; on `[]` this returns `0/0 = 0`, never used). -/
def serieMean (l : List ℚ) : ℚ := l.sum / (l.length : ℚ)

/-- pandas `Series.min()` of a non-empty numeric series. -/
def serieMin : List ℚ → ℚ
  | [] => 0
  | x :: xs => xs.foldl min x

/-- pandas `Series.max()` of a non-empty numeric series. -/
def serieMax : List ℚ → ℚ
  | [] => 0
  | x :: xs => xs.foldl max x

/-- Ascending sort of a series (the order pandas quantiles interpolate on). -/
def sortQ (l : List ℚ) : List ℚ := List.insertionSort (· ≤ ·) l

/-- pandas `Series.quantile(p)` with the default linear interpolation:
position `h = p·(n−1)` in the sorted data, linearly interpolated between the
two neighbouring order statistics. -/
def quantile (l : List ℚ) (p : ℚ) : ℚ :=
  let s := sortQ l
  let n := s.length
  if n = 0 then 0
  else
    let h : ℚ := p * ((n : ℚ) - 1)
    let i : ℕ := (⌊h⌋).toNat
    let lo := s.getD i 0
    let hi := s.getD (min (i + 1) (n - 1)) 0
    lo + (h - (i : ℚ)) * (hi - lo)

/-- The square of pandas `Series.std()` (sample deviation, `ddof=1`):
`Σ (x − mean)² / (n − 1)`.  Only meaningful for `n ≥ 2`; callers map the
`n < 2` case (pandas `NaN`) to `none`. -/
def varAmostral (l : List ℚ) : ℚ :=
  let m := serieMean l
  (l.map (fun x => (x - m) ^ 2)).sum / ((l.length : ℚ) - 1)

/-- The square of `Series.std(ddof=0)` (population deviation):
`Σ (x − mean)² / n`. -/
def varPopulacional (l : List ℚ) : ℚ :=
  let m := serieMean l
  (l.map (fun x => (x - m) ^ 2)).sum / (l.length : ℚ)

/-- The dictionary returned by `utilitarios.calcular_estatisticas`.
`desvio_padrao_sq` holds the square of the rounded-away deviation; it is
`none` exactly when pandas `Series.std()` is `NaN` (fewer than 2 samples)
or the series is empty. -/
structure Estatisticas where
  media : Option ℚ
  minimo : Option ℚ
  maximo : Option ℚ
  mediana : Option ℚ
  desvio_padrao_sq : Option ℚ
  q1 : Option ℚ
  q3 : Option ℚ
deriving DecidableEq

/-- The all-`None` dictionary `calcular_estatisticas` returns for an empty
series. -/
def estatisticasVazias : Estatisticas :=
  ⟨none, none, none, none, none, none, none⟩

/-- `utilitarios.calcular_estatisticas`: basic statistics of a numeric
series, each rounded to 2 decimal places (the deviation is kept unrounded,
as a square — see the header note). -/
def calcular_estatisticas (serie : List ℚ) : Estatisticas :=
  if serie.isEmpty then estatisticasVazias
  else
    { media := some (pyRound2 (serieMean serie))
      minimo := some (pyRound2 (serieMin serie))
      maximo := some (pyRound2 (serieMax serie))
      mediana := some (pyRound2 (quantile serie (1/2)))
      desvio_padrao_sq := if serie.length < 2 then none else some (varAmostral serie)
      q1 := some (pyRound2 (quantile serie (1/4)))
      q3 := some (pyRound2 (quantile serie (3/4))) }

/-- The `faixa_ideal` dictionary handed to `utilitarios.avaliar_status`:
a possibly missing `min` key and a possibly missing `max` key. -/
structure Faixa where
  minQ : Option ℚ
  maxQ : Option ℚ
deriving DecidableEq

/-- The `{}` default used at call sites (`.get(coluna, {})`). -/
def faixaVazia : Faixa := ⟨none, none⟩

/-- `utilitarios.avaliar_status`.  `faixa_ideal.get("min", -np.inf)` and
`faixa_ideal.get("max", np.inf)` default an absent bound to −∞ / +∞, i.e.
the corresponding comparison always holds. -/
def avaliar_status (media : Option ℚ) (faixa_ideal : Faixa) : String :=
  match media with
  | none => "erro"
  | some m =>
    let okMin := match faixa_ideal.minQ with
      | none => true
      | some lo => decide (lo ≤ m)
    let okMax := match faixa_ideal.maxQ with
      | none => true
      | some hi => decide (m ≤ hi)
    if okMin && okMax then "OK" else "Alerta"

example : avaliar_status (some 95) ⟨some 80, some 100⟩ = "OK" := by decide
example : avaliar_status (some 105) ⟨some 80, some 100⟩ = "Alerta" := by decide
example : avaliar_status none ⟨some 80, some 100⟩ = "erro" := by decide
example : avaliar_status (some 95) faixaVazia = "OK" := by decide

/-! ## Cells, tables, and the sanitizer (`utilitarios.sanitizar_coluna`) -/

/-- A raw `DataFrame` cell: missing (`NaN`/`NaT`), a string, or a number
(floats idealized as rationals; non-finite floats are outside the model). -/
inductive Celula where
  | na : Celula
  | str (s : String) : Celula
  | num (q : ℚ) : Celula
deriving DecidableEq

/-- A `DataFrame`: an association list from column name to the column's
cells (row order preserved). -/
abbrev Tabela := List (String × List Celula)

/-- `coluna in df.columns`. -/
def temColuna (df : Tabela) (c : String) : Bool := (df.lookup c).isSome

/-- `df[coluna]` (empty when the column is absent; callers check presence). -/
def colunaDados (df : Tabela) (c : String) : List Celula := (df.lookup c).getD []

/-- Characters Python's `str.strip()` removes (the common ASCII whitespace). -/
def isSpaceCh (c : Char) : Bool := c = ' ' || c = '\t' || c = '\n' || c = '\r'

/-- `Char.isDigit` as used by the number parser. -/
def isDigitCh (c : Char) : Bool := c.isDigit

/-- Numeric value of a most-significant-first digit string:
`foldl (acc*10 + digit)`. -/
def digitsVal (cs : List Char) : ℕ := cs.foldl (fun a c => a * 10 + (c.toNat - 48)) 0

/-- Split a character list at the first `'.'`, keeping the split evidence. -/
def breakAtDot : List Char → List Char × Option (List Char)
  | [] => ([], none)
  | c :: cs =>
    if c = '.' then ([], some cs)
    else
      let r := breakAtDot cs
      (c :: r.1, r.2)

/-- Split a character list at the first `'e'`/`'E'` (exponent marker). -/
def breakAtExp : List Char → List Char × Option (List Char)
  | [] => ([], none)
  | c :: cs =>
    if c = 'e' || c = 'E' then ([], some cs)
    else
      let r := breakAtExp cs
      (c :: r.1, r.2)

/-- Parse an unsigned decimal mantissa `digits[.digits]` (at least one digit
overall), as accepted by `pd.to_numeric`. -/
def parseMant (cs : List Char) : Option ℚ :=
  let r := breakAtDot cs
  let ip := r.1
  let fp := r.2.getD []
  if ip.all isDigitCh && fp.all isDigitCh && !(ip ++ fp).isEmpty then
    some ((digitsVal (ip ++ fp) : ℚ) / 10 ^ fp.length)
  else none

/-- Parse an exponent part: optional sign followed by digits. -/
def parseExpPart (cs : List Char) : Option ℤ :=
  match cs with
  | '+' :: ds => if ds.all isDigitCh && !ds.isEmpty then some ((digitsVal ds : ℕ) : ℤ) else none
  | '-' :: ds => if ds.all isDigitCh && !ds.isEmpty then some (-((digitsVal ds : ℕ) : ℤ)) else none
  | ds => if ds.all isDigitCh && !ds.isEmpty then some ((digitsVal ds : ℕ) : ℤ) else none

/-- Parse an unsigned float: mantissa with an optional exponent. -/
def parsePos (cs : List Char) : Option ℚ :=
  let r := breakAtExp cs
  match r.2 with
  | none => parseMant r.1
  | some ex =>
    match parseMant r.1, parseExpPart ex with
    | some m, some e => some (m * (10 : ℚ) ^ e)
    | _, _ => none

/-- `pd.to_numeric(s, errors="coerce")` on a single cleaned string:
optional sign, then an unsigned float; anything else coerces to `NaN`
(`none`). -/
def parseFloat (cs : List Char) : Option ℚ :=
  match cs with
  | [] => none
  | c :: rest =>
    if c = '+' then parsePos rest
    else if c = '-' then (parsePos rest).map (fun q => -q)
    else parsePos cs

/-- Number of times `p` divides `n` (fuel-based exact multiplicity). -/
def countFactorAux : ℕ → ℕ → ℕ → ℕ
  | 0, _, _ => 0
  | fuel + 1, p, n =>
    if 2 ≤ p ∧ n ≠ 0 ∧ n % p = 0 then countFactorAux fuel p (n / p) + 1 else 0

/-- Number of times `p` divides `n`. -/
def countFactor (p n : ℕ) : ℕ := countFactorAux n p n

/-- Smallest decimal shift that makes `q` an integer, when `q` is a decimal
fraction (denominator of the form `2^a·5^b`). -/
def decExp (q : ℚ) : ℕ := max (countFactor 2 q.den) (countFactor 5 q.den)

/-- The character of a decimal digit. -/
def digitChar (d : ℕ) : Char :=
  (['0', '1', '2', '3', '4', '5', '6', '7', '8', '9']).getD d '0'

/-- Little-endian decimal digits of a natural number (fuel-based so that it
reduces in the kernel; `natDigitsRev 0 = []`). -/
def natDigitsRevAux : ℕ → ℕ → List ℕ
  | 0, _ => []
  | fuel + 1, n => if n = 0 then [] else n % 10 :: natDigitsRevAux fuel (n / 10)

/-- Little-endian decimal digits of a natural number. -/
def natDigitsRev (n : ℕ) : List ℕ := natDigitsRevAux n n

/-- Python `str()` of a float, idealized on decimal rationals: the exact
decimal expansion, with a trailing `.0` on integral values (`str(40.0) =
"40.0"`); values that are not decimal fractions are not floats and render
to a non-numeric placeholder. -/
def renderQ (q : ℚ) : String :=
  let k := decExp q
  let v := q * 10 ^ k
  if v.den = 1 then
    let m := v.num
    let digs0 := (natDigitsRev m.natAbs).reverse.map digitChar
    let digs := List.replicate (k + 1 - digs0.length) '0' ++ digs0
    let ip := digs.take (digs.length - k)
    let fp := digs.drop (digs.length - k)
    let fps := if k = 0 then ['0'] else fp
    ((if m < 0 then ['-'] else []) ++ ip ++ '.' :: fps).asString
  else "invalido"

/-- `astype(str)` on one cell: `NaN` stringifies to `"nan"`, numbers via
`str(float)`. -/
def celulaStr : Celula → String
  | Celula.na => "nan"
  | Celula.str s => s
  | Celula.num q => renderQ q

/-- `str.strip()`: drop leading and trailing whitespace. -/
def stripChars (cs : List Char) : List Char :=
  ((cs.dropWhile isSpaceCh).reverse.dropWhile isSpaceCh).reverse

/-- Lines 18–23 of `sanitizar_coluna`: strip, comma→dot, drop `%`. -/
def limparCelula (s : String) : List Char :=
  ((stripChars s.toList).map (fun c => if c = ',' then '.' else c)).filter
    (fun c => !(c = '%'))

/-- The sentinel strings `['', '-', 'nan', 'None', 'NaT']` replaced by
`pd.NA` before numeric coercion. -/
def tokensInvalidos : List (List Char) :=
  [[], ['-'], ['n', 'a', 'n'], ['N', 'o', 'n', 'e'], ['N', 'a', 'T']]

/-- The per-cell pipeline of `sanitizar_coluna`: stringify, clean, map
sentinels to missing, coerce to a number (`none` = dropped by `dropna`). -/
def limpaEParse (cel : Celula) : Option ℚ :=
  let cs := limparCelula (celulaStr cel)
  if tokensInvalidos.contains cs then none else parseFloat cs

/-- `utilitarios.sanitizar_coluna`: an absent column yields an empty float
series; otherwise clean every cell and drop the unparsable ones. -/
def sanitizar_coluna (df : Tabela) (coluna : String) : List ℚ :=
  if temColuna df coluna then (colunaDados df coluna).filterMap limpaEParse else []

/-- `sanitizar_coluna(df, c)` where `c` may be Python `None` (an absent
alias): `None not in df.columns`, so the result is the empty series, the
same as the `if fuellvl_col else pd.Series(dtype=float)` call sites. -/
def sanitizarOpt (df : Tabela) (oc : Option String) : List ℚ :=
  match oc with
  | some c => sanitizar_coluna df c
  | none => []

example : renderQ 40 = "40.0" := by decide
example : renderQ (1/2) = "0.5" := by decide
example : renderQ (-(201/100)) = "-2.01" := by decide
example : parseFloat (("12.5").toList) = some (25/2) := by decide
example : parseFloat (("1.5e-2").toList) = some (3/200) := by decide
example : limpaEParse (Celula.str (" 12,5% ")) = some (25/2) := by decide
example : limpaEParse (Celula.str ("-")) = none := by decide
example : limpaEParse Celula.na = none := by decide
example : limpaEParse (Celula.num (25/2)) = some (25/2) := by decide

/-! ## `modulos/fuellvl.py`: consumption, distance, efficiency -/

/-- The numeric cells of a raw column (pandas reductions such as
`df["time(ms)"].max()` skip `NaN`; the column is numeric after the loader's
coercions). -/
def celulasNum (cells : List Celula) : List ℚ :=
  cells.filterMap (fun c => match c with | Celula.num q => some q | _ => none)

def colFUELLVL : String := "FUELLVL(%)"
def colTRIP : String := "TRIP_ODOM(km)"
def colODO : String := "ODOMETER(km)"
def colSPD : String := "IC_SPDMTR(km/h)"
def colIDLE : String := "ENGI_IDLE"
def colAFR : String := "AF_RATIO(:1)"
def colSHRT : String := "SHRTFT1(%)"
def colLONG : String := "LONGFT1(%)"
def colLAMBDA : String := "LAMBDA_1"
def colEGO : String := "LMD_EGO1(:1)"
def colLOAD : String := "LOAD.OBDII(%)"
def colTP : String := "TP.OBDII(%)"
def colECTG : String := "ECT_GAUGE(√Ç¬∞C)"
def colIAT : String := "IAT(√Ç¬∞C)"
def colVBAT : String := "VBAT_1(V)"
def colTIME : String := "time(ms)"

/-- `fuellvl.COLUNAS_EQUIVALENTES`: the alias table for column resolution. -/
def COLUNAS_EQUIVALENTES : List (String × List String) :=
  [ (colFUELLVL, [colFUELLVL, "FUEL_LVL(%)", "FUELLEVEL(%)"])
  , (colTRIP, [colTRIP, "TRIP(km)"])
  , (colODO, [colODO, "ODO(km)"])
  , (colSPD, [colSPD, "SPEED(km/h)"])
  , (colIDLE, [colIDLE, "IDLE"])
  , (colAFR, [colAFR, "AFR(:1)"])
  , (colSHRT, [colSHRT, "STFT1(%)"])
  , (colLONG, [colLONG, "LTFT1(%)"])
  , (colLAMBDA, [colLAMBDA, "LAMBDA"])
  , (colEGO, [colEGO, "EGO(:1)"])
  , (colLOAD, [colLOAD, "LOAD(%)"])
  , (colTP, [colTP, "TPS(%)"])
  , (colECTG, [colECTG, "ECT(¬∞C)"])
  , (colIAT, [colIAT, "IAT(¬∞C)"])
  , (colVBAT, [colVBAT, "VBAT(V)"]) ]

/-- `fuellvl.get_col`: first alias of `colname` present in the table, else
`None`. -/
def get_col (df : Tabela) (colname : String) : Option String :=
  ((COLUNAS_EQUIVALENTES.lookup colname).getD [colname]).find? (fun a => temColuna df a)

/-- `fuellvl.VOLUME_TANQUE` (litres). -/
def VOLUME_TANQUE : ℚ := 55

/-- The sanitized fuel-level series of `analisar`
(`sanitizar_coluna(df, fuellvl_col)`). -/
def serieFuellvl (df : Tabela) : List ℚ := sanitizarOpt df (get_col df colFUELLVL)

/-- The sanitized trip-odometer series. -/
def serieTrip (df : Tabela) : List ℚ := sanitizarOpt df (get_col df colTRIP)

/-- The sanitized lifetime-odometer series. -/
def serieOdo (df : Tabela) : List ℚ := sanitizarOpt df (get_col df colODO)

/-- `tempo_total_seg`: `(df["time(ms)"].max() − min) / 1000` when the raw
time column exists (`NaN` on an all-missing column is modelled as `none`,
like the absent-column `None`). -/
def tempo_total_seg_calc (df : Tabela) : Option ℚ :=
  if temColuna df colTIME then
    match celulasNum (colunaDados df colTIME) with
    | [] => none
    | ts => some ((serieMax ts - serieMin ts) / 1000)
  else none

/-- `distancia_km`: span of the trip odometer, else of the lifetime
odometer, else `None`. -/
def distancia_km_calc (df : Tabela) : Option ℚ :=
  if !(serieTrip df).isEmpty then some (serieMax (serieTrip df) - serieMin (serieTrip df))
  else if !(serieOdo df).isEmpty then some (serieMax (serieOdo df) - serieMin (serieOdo df))
  else none

/-- `inicio = fuellvl.head(10).mean()`. -/
def inicioJanela (s : List ℚ) : ℚ := serieMean (s.take 10)

/-- `fim = fuellvl.tail(10).mean()`. -/
def fimJanela (s : List ℚ) : ℚ := serieMean (s.drop (s.length - 10))

/-- `(consumo_pct, consumo_litros)` of `analisar`:
`consumo_pct = max(inicio − fim, 0)`,
`consumo_litros = round(consumo_pct / 100 · VOLUME_TANQUE, 2)`; both `None`
when the fuel-level series is empty. -/
def consumo_calc (df : Tabela) : Option (ℚ × ℚ) :=
  match serieFuellvl df with
  | [] => none
  | s =>
    let pct := max (inicioJanela s - fimJanela s) 0
    some (pct, pyRound2 (pct / 100 * VOLUME_TANQUE))

def consumo_pct_calc (df : Tabela) : Option ℚ := (consumo_calc df).map Prod.fst

def consumo_litros_calc (df : Tabela) : Option ℚ := (consumo_calc df).map Prod.snd

/-- `kml`: `round(distancia_km / consumo_litros, 2)` under
`if distancia_km and consumo_litros and consumo_litros > 0` — Python
truthiness makes the zero float falsy, hence the `≠ 0` conjuncts. -/
def kml_calc (df : Tabela) : Option ℚ :=
  match distancia_km_calc df, consumo_litros_calc df with
  | some d, some cl => if d ≠ 0 ∧ cl ≠ 0 ∧ 0 < cl then some (pyRound2 (d / cl)) else none
  | _, _ => none

/-- The `"mistura"` block of `resultado["valores"]` (dictionary order:
AF_RATIO, SHRTFT1, LONGFT1, Lambda, EGO). -/
structure MisturaValores where
  afr : Estatisticas
  shrtft : Estatisticas
  longft : Estatisticas
  lambda1 : Estatisticas
  ego : Estatisticas
deriving DecidableEq

/-- The `"motor"` block of `resultado["valores"]`. -/
structure MotorValores where
  load : Estatisticas
  tps : Estatisticas
  ect : Estatisticas
  iat : Estatisticas
  vbat : Estatisticas
deriving DecidableEq

/-- `resultado["valores"]` of `fuellvl.analisar` (`stats_or_none` is the
identity on this model: `float` of a rational is itself). -/
structure FuellvlValores where
  consumo_litros : Option ℚ
  consumo_pct : Option ℚ
  distancia_km : Option ℚ
  kml : Option ℚ
  tempo_total_seg : Option ℚ
  mistura : MisturaValores
  motor : MotorValores
deriving DecidableEq

/-- The result dictionary of `fuellvl.analisar`. -/
structure ResultadoFuellvl where
  status : String
  mensagem : String
  valores : FuellvlValores
deriving DecidableEq

def mistura_calc (df : Tabela) : MisturaValores :=
  ⟨ calcular_estatisticas (sanitizarOpt df (get_col df colAFR))
  , calcular_estatisticas (sanitizarOpt df (get_col df colSHRT))
  , calcular_estatisticas (sanitizarOpt df (get_col df colLONG))
  , calcular_estatisticas (sanitizarOpt df (get_col df colLAMBDA))
  , calcular_estatisticas (sanitizarOpt df (get_col df colEGO)) ⟩

def motor_calc (df : Tabela) : MotorValores :=
  ⟨ calcular_estatisticas (sanitizarOpt df (get_col df colLOAD))
  , calcular_estatisticas (sanitizarOpt df (get_col df colTP))
  , calcular_estatisticas (sanitizarOpt df (get_col df colECTG))
  , calcular_estatisticas (sanitizarOpt df (get_col df colIAT))
  , calcular_estatisticas (sanitizarOpt df (get_col df colVBAT)) ⟩

/-- The `faixas` dictionary
`valores_ideais.get(modelo, {}).get(combustivel, {})` as used by
`fuellvl.analisar`. -/
structure FaixasFuellvl where
  consumo_minimo_kml : Option ℚ
  afr : Option (ℚ × ℚ)
  shrtft : Option (ℚ × ℚ)
  longft : Option (ℚ × ℚ)
  lambda1 : Option (ℚ × ℚ)
  ego : Option (ℚ × ℚ)
deriving DecidableEq

def faixasFuellvlVazia : FaixasFuellvl := ⟨none, none, none, none, none, none⟩

abbrev ValoresIdeaisFuellvl := List (String × List (String × FaixasFuellvl))

/-- Python `str(x)` where `x` may be `None`. -/
def showOptQ : Option ℚ → String
  | none => "None"
  | some q => renderQ q

/-- Python `str` of a two-element list `[a, b]`. -/
def showParQ (fx : ℚ × ℚ) : String :=
  "[" ++ renderQ fx.1 ++ ", " ++ renderQ fx.2 ++ "]"

def msgConsumoAlerta (k mk : ℚ) : String :=
  "⚠️ Consumo médio " ++ renderQ k ++ " km/L abaixo do ideal (" ++ renderQ mk ++ " km/L)"

def msgCampoFora (campo : String) (m : ℚ) (fx : ℚ × ℚ) : String :=
  campo ++ " médio " ++ renderQ m ++ " fora da faixa " ++ showParQ fx

def msgPadraoFuellvl : String := "Parâmetros de consumo e mistura dentro do esperado."

/-- One step of the mixture-evaluation loop: an alert message when the
field's mean exists, a range is configured and the mean falls outside it
(`if faixa and not (faixa[0] <= media <= faixa[1])`). -/
def campoFora (campo : String) (st : Estatisticas) (fx : Option (ℚ × ℚ)) : Option String :=
  match st.media, fx with
  | some m, some par =>
    if par.1 ≤ m ∧ m ≤ par.2 then none else some (msgCampoFora campo m par)
  | _, _ => none

/-- `fuellvl.analisar`.  The `engi_idle` normalization of lines 55–59 is
computed by the source but never used afterwards (dead code) and is omitted
from the result. -/
def analisar_fuellvl (df : Tabela) (modelo combustivel : String)
    (valores_ideais : ValoresIdeaisFuellvl) : ResultadoFuellvl :=
  let valores : FuellvlValores :=
    ⟨ consumo_litros_calc df, consumo_pct_calc df, distancia_km_calc df, kml_calc df
    , tempo_total_seg_calc df, mistura_calc df, motor_calc df ⟩
  let faixas := (((valores_ideais.lookup modelo).getD []).lookup combustivel).getD faixasFuellvlVazia
  let msgKml : Option String :=
    match kml_calc df, faixas.consumo_minimo_kml with
    | some k, some mk => if k < mk then some (msgConsumoAlerta k mk) else none
    | _, _ => none
  let m := mistura_calc df
  let msgsMistura := List.filterMap id
    [ campoFora ("AF_RATIO") m.afr faixas.afr
    , campoFora ("SHRTFT1") m.shrtft faixas.shrtft
    , campoFora ("LONGFT1") m.longft faixas.longft
    , campoFora ("Lambda") m.lambda1 faixas.lambda1
    , campoFora ("EGO") m.ego faixas.ego ]
  let msgs := (match msgKml with | some s => [s] | none => []) ++ msgsMistura
  let status := if msgs.isEmpty then "OK" else "alerta"
  let mensagens := if msgs.isEmpty then [msgPadraoFuellvl] else msgs
  ⟨status, String.intercalate ("\n") mensagens, valores⟩

/-- The refuel trip of the clamp example: fuel level 40 % in the initial
window, 55 % in the final window. -/
def dfRefuel : Tabela :=
  [(colFUELLVL, List.replicate 10 (Celula.num 40) ++ List.replicate 10 (Celula.num 55))]

/-- A genuine zero-consumption trip: constant 50 % fuel level. -/
def dfConstante : Tabela := [(colFUELLVL, List.replicate 20 (Celula.num 50))]

example : consumo_pct_calc dfRefuel = some 0 := by decide
example : consumo_litros_calc dfRefuel = some 0 := by decide
example : consumo_pct_calc dfConstante = some 0 := by decide
example : kml_calc dfRefuel = none := by decide

/-! ## `modulos/spkdur.py`: spark duration and cylinder balance -/

/-- `spkdur.COLUNAS_SPK`. -/
def COLUNAS_SPK : List String :=
  ["SPKDUR_1(ms)", "SPKDUR_2(ms)", "SPKDUR_3(ms)", "SPKDUR_4(ms)"]

/-- The nested reference dictionary `valores_ideais[modelo][combustivel]`
as read by `spkdur.analisar`: per-column `min`/`max` ranges. -/
abbrev ValoresIdeaisSpk := List (String × List (String × List (String × Faixa)))

/-- The (rounded) mean spark duration of one cylinder column. -/
def mediaCil (df : Tabela) (coluna : String) : Option ℚ :=
  (calcular_estatisticas (sanitizar_coluna df coluna)).media

/-- `medias_cilindros`: the per-cylinder means collected by the loop, in
column order, skipping columns without valid data. -/
def mediasCilindros (df : Tabela) : List ℚ := COLUNAS_SPK.filterMap (mediaCil df)

/-- One `resultados[coluna]` entry of `spkdur.analisar`. -/
structure CilindroResultado where
  estatisticas : Estatisticas
  status : String
deriving DecidableEq

/-- The result dictionary of `spkdur.analisar` (`desbalanceamento` is the
`"desbalanceamento_%"` key, absent when fewer than two cylinder means
exist). -/
structure ResultadoSpkdur where
  status : String
  mensagem : String
  cilindros : List (String × CilindroResultado)
  desbalanceamento : Option ℚ
deriving DecidableEq

/-- The per-cylinder message appended by the loop. -/
def mensagemCil (coluna : String) (e : Estatisticas) : String :=
  match e.media with
  | some _ =>
    coluna ++ ": média=" ++ showOptQ e.media ++ ", min=" ++ showOptQ e.minimo
      ++ ", max=" ++ showOptQ e.maximo
  | none => coluna ++ ": sem dados válidos"

def msgDesbalanceamento (perc : ℚ) : String :=
  "⚠️ Diferença entre cilindros: " ++ renderQ (pyRound2 perc) ++ "% → possível desbalanceamento"

/-- One loop iteration of `spkdur.analisar`: statistics plus the threshold
verdict against `valores_ideais[modelo][combustivel].get(coluna, {})`. -/
def cilindroResultado (df : Tabela) (faixas : List (String × Faixa)) (coluna : String) :
    CilindroResultado :=
  let estat := calcular_estatisticas (sanitizar_coluna df coluna)
  ⟨estat, avaliar_status estat.media ((faixas.lookup coluna).getD faixaVazia)⟩

/-- `spkdur.analisar`: per-cylinder statistics and verdicts, then the
cylinder-balance evaluation
`perc_diff = (max − min) / max * 100 if max(medias) else 0`, flagged as an
alert above 20 %. -/
def analisar_spkdur (df : Tabela) (modelo combustivel : String) (vi : ValoresIdeaisSpk) :
    ResultadoSpkdur :=
  let faixas := (((vi.lookup modelo).getD []).lookup combustivel).getD []
  let resultados := COLUNAS_SPK.map (fun c => (c, cilindroResultado df faixas c))
  let mensagens0 := COLUNAS_SPK.map
    (fun c => mensagemCil c (calcular_estatisticas (sanitizar_coluna df c)))
  let statusGeral0 := if resultados.any (fun p => p.2.status == "Alerta") then "Alerta" else "OK"
  let medias := mediasCilindros df
  if 2 ≤ medias.length then
    let vmax := serieMax medias
    let vmin := serieMin medias
    let perc := if vmax ≠ 0 then (vmax - vmin) / vmax * 100 else 0
    let desb := some (pyRound2 perc)
    if 20 < perc then
      ⟨"Alerta", String.intercalate (" | ") (mensagens0 ++ [msgDesbalanceamento perc]),
        resultados, desb⟩
    else ⟨statusGeral0, String.intercalate (" | ") mensagens0, resultados, desb⟩
  else ⟨statusGeral0, String.intercalate (" | ") mensagens0, resultados, none⟩

/-- The cylinder-balance example: per-cylinder means 2.1, 2.3, 2.0, 3.0 ms. -/
def dfSpk : Tabela :=
  [ ("SPKDUR_1(ms)", [Celula.num (21/10)])
  , ("SPKDUR_2(ms)", [Celula.num (23/10)])
  , ("SPKDUR_3(ms)", [Celula.num 2])
  , ("SPKDUR_4(ms)", [Celula.num 3]) ]

example : mediasCilindros dfSpk = [21/10, 23/10, 2, 3] := by decide

/-! ## `resumo_geral.py`: winsorized statistics -/

/-- Winsorized mean of `resumo_geral.analisar` (also lines 187–193 of
`analisar_fuellvl`): clip the series at its 5th and 95th percentiles
(`col.clip(lower=col.quantile(0.05), upper=col.quantile(0.95))`, the lower
bound applied first), then average. -/
def media_winsorizada (col : List ℚ) : ℚ :=
  let lo := quantile col (5/100)
  let hi := quantile col (95/100)
  serieMean (col.map (fun x => min (max x lo) hi))

/-- `scipy.stats.mstats.winsorize(dados, limits=l)` with the default
inclusive limits: in sorted order, the lowest `int(l·n)` values are
replaced by the value at sorted position `int(l·n)`, and symmetrically the
highest by the value at position `n − int(l·n) − 1`.  The caller only takes
the mean, which is permutation-invariant, so the model winsorizes the
sorted copy. -/
def winsorizeCount (l : List ℚ) (limite : ℚ) : List ℚ :=
  let s := sortQ l
  let n := s.length
  let k := (⌊limite * (n : ℚ)⌋).toNat
  List.replicate k (s.getD k 0) ++ (s.drop k).take (n - k - k)
    ++ List.replicate k (s.getD (n - k - 1) 0)

/-- The dictionary returned by `resumo_geral.estatisticas_winsorizadas`
(the `{}` returned for an empty series is the all-`none` record). -/
structure EstatWins where
  minimo : Option ℚ
  mediana : Option ℚ
  maximo : Option ℚ
  media_winsorizada : Option ℚ
deriving DecidableEq

/-- `resumo_geral.estatisticas_winsorizadas`. -/
def estatisticas_winsorizadas (serie : List ℚ) (limite : ℚ) : EstatWins :=
  if serie.isEmpty then ⟨none, none, none, none⟩
  else
    ⟨ some (pyRound2 (serieMin serie)), some (pyRound2 (quantile serie (1/2)))
    , some (pyRound2 (serieMax serie))
    , some (pyRound2 (serieMean (winsorizeCount serie limite))) ⟩

example : (estatisticas_winsorizadas [5] (5/100)).media_winsorizada = some 5 := by decide

/-! ## `processamento.py`: the CSV loader's mandatory-column gate -/

/-- A single-quote character, built by code point so quoted Python list
renderings can be reproduced. -/
def aspas : String := String.singleton (Char.ofNat 39)

/-- Column-name normalization of the loader (lines 16–19): strip
whitespace, drop the U+FFFD replacement character. -/
def padronizarNome (c : String) : String :=
  ((stripChars c.toList).filter (fun ch => !(ch = '�'))).asString

/-- The message of the `Exception` raised on line 23. -/
def MSG_COLUNAS_OBRIGATORIAS : String :=
  "Colunas obrigatórias não encontradas: " ++ aspas ++ "time(ms)" ++ aspas
    ++ " ou " ++ aspas ++ "ENGI_IDLE" ++ aspas ++ "."

/-- `processamento.carregar_e_processar_csv`, lines 13–23: normalize the
column names, then require both `time(ms)` and `ENGI_IDLE`, raising
(`Except.error`) otherwise.  The subsequent in-place conversions (time
formatting, idle normalization, numeric coercion, empty-row dropping)
change cell representations only and are not needed by any claim; the
checked table is returned unchanged. -/
def carregar_e_processar_csv (df : Tabela) : Except String Tabela :=
  let df2 := df.map (fun p => (padronizarNome p.1, p.2))
  if temColuna df2 colTIME && temColuna df2 colIDLE then Except.ok df2
  else Except.error MSG_COLUNAS_OBRIGATORIAS

/-! ## `modulos/analise_completa.py`: the full per-column report -/

/-- `pd.api.types.is_numeric_dtype`: a column whose cells are all numbers
or missing has a numeric dtype; any string cell makes it an object dtype,
analysed as categorical.  (`dropna` does not change a column's dtype, so
the test is on the raw column.) -/
def dtypeNumerico (cells : List Celula) : Bool :=
  cells.all (fun c => match c with | Celula.str _ => false | _ => true)

/-- `dropna` on a raw column. -/
def dropNa (cells : List Celula) : List Celula := cells.filter (fun c => !(c = Celula.na))

/-- `analise_completa.estatisticas_numericas` (un-rounded; every field is
pandas `NaN` = `none` on an empty series; the deviation is `std(ddof=0)`,
kept as its square). -/
structure EstatisticasNum where
  minimo : Option ℚ
  media : Option ℚ
  maximo : Option ℚ
  mediana : Option ℚ
  desvio_pop_sq : Option ℚ
  q1 : Option ℚ
  q3 : Option ℚ
deriving DecidableEq

def estatisticas_numericas (serie : List ℚ) : EstatisticasNum :=
  if serie.isEmpty then ⟨none, none, none, none, none, none, none⟩
  else
    ⟨ some (serieMin serie), some (serieMean serie), some (serieMax serie)
    , some (quantile serie (1/2)), some (varPopulacional serie)
    , some (quantile serie (1/4)), some (quantile serie (3/4)) ⟩

/-- Distinct values in first-appearance order (`Series.unique`). -/
def distinctInOrder {α : Type} [DecidableEq α] (l : List α) : List α :=
  l.foldl (fun acc x => if acc.contains x then acc else acc ++ [x]) []

/-- `value_counts(normalize=True).head(3) * 100` with `round(freq, 2)`:
distinct values stably sorted by descending count (pandas leaves tie order
unspecified; the model fixes first-appearance order), top 3, with rounded
percentage frequencies. -/
def top3_valores {α : Type} [DecidableEq α] (l : List α) : List (α × ℚ) :=
  let pares := (distinctInOrder l).map (fun v => (v, l.count v))
  let ordenado := List.insertionSort (fun a b => b.2 ≤ a.2) pares
  (ordenado.take 3).map (fun p => (p.1, pyRound2 (100 * (p.2 : ℚ) / (l.length : ℚ))))

/-- Decimal string of a natural number (Python `str(int)`). -/
def natToStr (n : ℕ) : String :=
  if n = 0 then "0" else ((natDigitsRev n).reverse.map digitChar).asString

/-- Python `f"{x:.1f}"` on the rational idealization: round half to even at
one decimal place. -/
def pyFormat1f (x : ℚ) : String :=
  let m := roundHalfEven (x * 10)
  (if m < 0 then "-" else "") ++ natToStr (m.natAbs / 10) ++ "." ++ natToStr (m.natAbs % 10)

/-- `std(ddof=0)` squared, `none` (`NaN`) on the empty series. -/
def varPopOpt (serie : List ℚ) : Option ℚ :=
  if serie.isEmpty then none else some (varPopulacional serie)

/-- `analise_completa.detectar_comportamento_numerico`.
`serie.std(ddof=0) < 0.01` is equivalent to variance < 0.0001 (both sides
non-negative), and is false when the deviation is `NaN` (empty series); on
an empty series with a configured range, `serie.between(...).mean()` is
`NaN`, `NaN < 75` is false, and the else-branch formats `"nan"`. -/
def detectar_comportamento_numerico (serie : List ℚ) (faixa : Option (ℚ × ℚ)) : List String :=
  let l1 := match varPopOpt serie with
    | some v => if v < 1/10000 then ["Pouca variação (sensor possivelmente travado)"] else []
    | none => []
  let l2 := match faixa with
    | some par =>
      match serie with
      | [] => ["nan% dentro da faixa ideal"]
      | _ =>
        let dentro := 100 * ((serie.countP (fun x => decide (par.1 ≤ x ∧ x ≤ par.2)) : ℕ) : ℚ)
          / (serie.length : ℚ)
        if dentro < 75 then ["Só " ++ pyFormat1f dentro ++ "% dentro da faixa ideal"]
        else [pyFormat1f dentro ++ "% dentro da faixa ideal"]
    | none => []
  l1 ++ l2

/-- Python `str` of a list of strings (single-quoted elements). -/
def showListStr (l : List String) : String :=
  "[" ++ String.intercalate (", ") (l.map (fun s => aspas ++ s ++ aspas)) ++ "]"

/-- `analise_completa.detectar_comportamento_categorico`. -/
def detectar_comportamento_categorico (serie : List String) (valoresEsp : Option (List String)) :
    List String :=
  let obs1 := natToStr (distinctInOrder serie).length ++ " valores distintos detectados"
  match valoresEsp with
  | some esp =>
    if esp.isEmpty then [obs1]
    else
      let desconhecidos := (distinctInOrder serie).filter (fun v => !(esp.contains v))
      if desconhecidos.isEmpty then [obs1]
      else [obs1, "Valores inesperados detectados: " ++ showListStr (desconhecidos.take 3)]
  | none => [obs1]

/-- One entry of the `valores_ideais` dictionary of
`analisar_dataframe_completo`: a `[min, max]` pair for numeric parameters
or an expected-value list for categorical ones. -/
inductive ConfigIdeal where
  | faixa (par : ℚ × ℚ) : ConfigIdeal
  | valores (vs : List String) : ConfigIdeal
deriving DecidableEq

abbrev ValoresIdeaisCompleta := List (String × ConfigIdeal)

/-- One entry of the report of `analisar_dataframe_completo`: the
`status: sem_dados` dictionary for an absent column, or the numeric /
categorical analysis blocks. -/
inductive EntradaAnalise where
  | semDados (mensagem : String) : EntradaAnalise
  | numerico (valoresEsperados : Option ConfigIdeal) (estatisticas : EstatisticasNum)
      (top3 : List (ℚ × ℚ)) (comportamento : List String) : EntradaAnalise
  | categorico (valoresEsperados : Option ConfigIdeal) (top3 : List (String × ℚ))
      (comportamento : List String) : EntradaAnalise
deriving DecidableEq

/-- The f-string of the `sem_dados` entry. -/
def msgColunaAusente (coluna : String) : String :=
  "Coluna " ++ aspas ++ coluna ++ aspas ++ " não encontrada no DataFrame."

/-- The registry of the 41 logical columns iterated by
`analisar_dataframe_completo`. -/
def colunasRegistro : List String :=
  [ "time(ms)", "IC_SPDMTR(km/h)", "RPM(1/min)", "ODOMETER(km)", "TRIP_ODOM(km)"
  , "ENGI_IDLE", "OPENLOOP", "BOO_ABS", "ENG_STAB", "FUELLVL(%)", "FUELPW(ms)"
  , "FUEL_CORR(:1)", "AF_LEARN", "SHRTFT1(%)", "LONGFT1(%)", "AF_RATIO(:1)"
  , "LMD_EGO1(:1)", "O2S11_V(V)", "ECT_GAUGE(Â°C)", "ECT(Â°C)", "IAT(Â°C)"
  , "MAP(V)", "MAP.OBDII(kPa)", "MIXCNT_STAT", "LAMBDA_1", "SPKDUR_1(ms)"
  , "SPKDUR_2(ms)", "SPKDUR_3(ms)", "SPKDUR_4(ms)", "LF_WSPD(km/h)"
  , "RF_WSPD(km/h)", "LR_WSPD(km/h)", "RR_WSPD(km/h)", "VBAT_1(V)"
  , "BRK_LVL", "FUEL_RESER", "PSP", "FANLO", "FANHI", "ANY_DR_AJ", "T_AJAR" ]

/-- The loop body of `analisar_dataframe_completo` for one registry column.
A config value of the wrong shape fails the source's `isinstance`/length
guards, hence the constructor matches below. -/
def analisarColunaCompleta (df : Tabela) (vi : ValoresIdeaisCompleta) (coluna : String) :
    EntradaAnalise :=
  if !temColuna df coluna then EntradaAnalise.semDados (msgColunaAusente coluna)
  else
    let bruto := colunaDados df coluna
    let semNa := dropNa bruto
    let cfg := vi.lookup coluna
    if dtypeNumerico bruto then
      let serie := celulasNum semNa
      let faixa := match cfg with | some (ConfigIdeal.faixa par) => some par | _ => none
      EntradaAnalise.numerico cfg (estatisticas_numericas serie)
        (top3_valores (serie.map pyRound2)) (detectar_comportamento_numerico serie faixa)
    else
      let serie := semNa.map (fun c => ((stripChars (celulaStr c).toList).asString).toLower)
      let esp := match cfg with | some (ConfigIdeal.valores vs) => some vs | _ => none
      EntradaAnalise.categorico cfg (top3_valores serie)
        (detectar_comportamento_categorico serie esp)

/-- `analise_completa.analisar_dataframe_completo`: one entry per registry
column, absent columns included as `sem_dados`. -/
def analisar_dataframe_completo (df : Tabela) (vi : ValoresIdeaisCompleta) :
    List (String × EntradaAnalise) :=
  colunasRegistro.map (fun coluna => (coluna, analisarColunaCompleta df vi coluna))

/-! ## Helper lemmas -/

lemma foldl_min_le_init (xs : List ℚ) (a : ℚ) : xs.foldl min a ≤ a := by
  induction xs generalizing a with
  | nil => exact le_refl a
  | cons c t ih => exact le_trans (ih (min a c)) (min_le_left a c)

lemma init_le_foldl_max (xs : List ℚ) (a : ℚ) : a ≤ xs.foldl max a := by
  induction xs generalizing a with
  | nil => exact le_refl a
  | cons c t ih => exact le_trans (le_max_left a c) (ih (max a c))

lemma serieMin_le_serieMax (l : List ℚ) : serieMin l ≤ serieMax l := by
  match l with
  | [] => exact le_refl 0
  | x :: xs => exact le_trans (foldl_min_le_init xs x) (init_le_foldl_max xs x)

lemma distancia_nonneg (df : Tabela) (d : ℚ) (hd : distancia_km_calc df = some d) : 0 ≤ d := by
  unfold distancia_km_calc at hd
  split at hd
  · rw [Option.some_inj] at hd
    rw [← hd]
    exact sub_nonneg.mpr (serieMin_le_serieMax _)
  · split at hd
    · rw [Option.some_inj] at hd
      rw [← hd]
      exact sub_nonneg.mpr (serieMin_le_serieMax _)
    · exact absurd hd (Option.some_ne_none d).symm

lemma pyRound2_zero : pyRound2 0 = 0 := by
  unfold pyRound2 roundHalfEven
  norm_num

lemma lookup_map_self {β : Type} (f : String → β) :
    ∀ (l : List String) (c : String), c ∈ l →
      (l.map (fun x => (x, f x))).lookup c = some (f c) := by
  intro l
  induction l with
  | nil => intro c h; exact absurd h (List.not_mem_nil c)
  | cons x xs ih =>
    intro c h
    by_cases hcx : c = x
    · subst hcx
      simp [List.lookup]
    · have hne : (c == x) = false := beq_false_of_ne hcx
      have hmem : c ∈ xs := by
        rcases List.mem_cons.mp h with h1 | h1
        · exact absurd h1 hcx
        · exact h1
      simp [List.lookup, hne, ih c hmem]

/-! ## Claim theorems: thresholds (C2, C10) -/

/-- C2 (counterexample): the claim requires `erro` when no ideal range is
configured for the key; the code returns `OK` for a non-null mean with the
empty range dictionary (`.get` defaults the bounds to ±∞). -/
theorem C2_counterexample :
    avaliar_status (some 95) faixaVazia = "OK"
    ∧ avaliar_status (some 95) faixaVazia ≠ "erro" := by
  constructor
  · rfl
  · decide

/-- C2 (amended): threshold evaluation returns `erro` iff the statistic is
null; for a non-null value with both bounds configured it returns `OK`
exactly on `min ≤ v ≤ max` (both ends inclusive) and `Alerta` otherwise;
with no range configured the missing bounds default to −∞/+∞ and the
verdict is `OK`, not `erro`.  The spec's concrete examples hold. -/
theorem C2_amended :
    (∀ faixa : Faixa, avaliar_status none faixa = "erro")
    ∧ (∀ (v : ℚ) (faixa : Faixa), avaliar_status (some v) faixa ≠ "erro")
    ∧ (∀ (v lo hi : ℚ), avaliar_status (some v) ⟨some lo, some hi⟩
        = if lo ≤ v ∧ v ≤ hi then "OK" else "Alerta")
    ∧ (∀ v : ℚ, avaliar_status (some v) faixaVazia = "OK")
    ∧ avaliar_status (some 95) ⟨some 80, some 100⟩ = "OK"
    ∧ avaliar_status (some 105) ⟨some 80, some 100⟩ = "Alerta"
    ∧ avaliar_status none ⟨some 80, some 100⟩ = "erro" := by
  refine ⟨fun faixa => rfl, ?_, ?_, fun v => rfl, by decide, by decide, rfl⟩
  · intro v faixa
    simp only [avaliar_status]
    split <;> decide
  · intro v lo hi
    simp only [avaliar_status]
    by_cases h1 : lo ≤ v <;> by_cases h2 : v ≤ hi <;>
      simp [h1, h2]

/-- C10: with an empty or partial range dictionary the absent bound
defaults to −∞/+∞ (`.get("min", -np.inf)` / `.get("max", np.inf)`); a
non-null mean against the empty mapping yields `OK`, and `erro` occurs
exactly when the mean is null. -/
theorem C10_default_bounds :
    (∀ v : ℚ, avaliar_status (some v) faixaVazia = "OK")
    ∧ (∀ v hi : ℚ, avaliar_status (some v) ⟨none, some hi⟩
        = if v ≤ hi then "OK" else "Alerta")
    ∧ (∀ v lo : ℚ, avaliar_status (some v) ⟨some lo, none⟩
        = if lo ≤ v then "OK" else "Alerta")
    ∧ (∀ (m : Option ℚ) (faixa : Faixa), avaliar_status m faixa = "erro" ↔ m = none) := by
  refine ⟨fun v => rfl, ?_, ?_, ?_⟩
  · intro v hi
    simp only [avaliar_status]
    by_cases h : v ≤ hi <;> simp [h]
  · intro v lo
    simp only [avaliar_status]
    by_cases h : lo ≤ v <;> simp [h]
  · intro m faixa
    match m with
    | none => simp [avaliar_status]
    | some v =>
      simp only [avaliar_status]
      constructor
      · intro h
        split at h <;> simp_all
      · intro h
        exact absurd h (by simp)

/-! ## Claim theorems: short series (C6) and all-invalid columns (C9) -/

lemma serieMean_singleton (x : ℚ) : serieMean [x] = x := by
  simp [serieMean]

lemma sortQ_singleton (x : ℚ) : sortQ [x] = [x] := rfl

lemma quantile_singleton (x p : ℚ) : quantile [x] p = x := by
  simp only [quantile, sortQ_singleton]
  norm_num

lemma winsorizeCount_singleton (x : ℚ) : winsorizeCount [x] (5/100) = [x] := by
  simp only [winsorizeCount, sortQ_singleton]
  norm_num

/-- C6 (counterexample): on the one-element series `[5]` the winsorized
mean of the statistics summary is `5`, not null, contradicting the claim
that a series of length < 2 has an undefined winsorized mean
(`mstats.winsorize` with `limits=0.05` masks `int(0.05·1) = 0` values). -/
theorem C6_counterexample :
    (estatisticas_winsorizadas [5] (5/100)).media_winsorizada = some 5
    ∧ (estatisticas_winsorizadas [5] (5/100)).media_winsorizada ≠ none := by
  constructor
  · decide
  · decide

/-- C6 (amended): a series of length < 2 has a null standard deviation
(pandas `std` with `ddof=1` is `NaN` there) and defined min, max and
median, with no division performed at `n − 1 = 0`; but the winsorized mean
of a one-element series is *defined* and equals the (rounded) single value
— only the empty series has a null winsorized mean. -/
theorem C6_amended (x : ℚ) :
    (calcular_estatisticas [x]).desvio_padrao_sq = none
    ∧ calcular_estatisticas [] = estatisticasVazias
    ∧ (calcular_estatisticas [x]).minimo = some (pyRound2 x)
    ∧ (calcular_estatisticas [x]).maximo = some (pyRound2 x)
    ∧ (calcular_estatisticas [x]).mediana = some (pyRound2 x)
    ∧ (estatisticas_winsorizadas [x] (5/100)).media_winsorizada = some (pyRound2 x)
    ∧ (estatisticas_winsorizadas [] (5/100)).media_winsorizada = none := by
  refine ⟨?_, rfl, ?_, ?_, ?_, ?_, rfl⟩
  · simp [calcular_estatisticas]
  · simp [calcular_estatisticas, serieMin]
  · simp [calcular_estatisticas, serieMax]
  · simp [calcular_estatisticas, quantile_singleton]
  · simp [estatisticas_winsorizadas, winsorizeCount_singleton, serieMean_singleton]

/-- C9: sanitizing a column whose every cell is missing, a sentinel token
or unparsable yields the empty series (no sentinel or `NaN` value in it),
and the statistics summary of that series has every field null; the
computation is total (never raises). -/
theorem C9_all_invalid (df : Tabela) (coluna : String)
    (h : ∀ cel ∈ colunaDados df coluna, limpaEParse cel = none) :
    sanitizar_coluna df coluna = []
    ∧ calcular_estatisticas (sanitizar_coluna df coluna) = estatisticasVazias := by
  have hs : sanitizar_coluna df coluna = [] := by
    unfold sanitizar_coluna
    split
    · exact List.filterMap_eq_nil_iff.mpr h
    · rfl
  rw [hs]
  exact ⟨rfl, rfl⟩

/-- The all-invalid column of the C9 witness. -/
def dfInvalida : Tabela :=
  [("X", [Celula.na, Celula.str ("-"), Celula.str ("abc"), Celula.str (""),
    Celula.str ("None"), Celula.str ("NaT"), Celula.str ("12,5,0")])]

theorem C9_witness :
    (∀ cel ∈ colunaDados dfInvalida ("X"), limpaEParse cel = none)
    ∧ sanitizar_coluna dfInvalida ("X") = []
    ∧ calcular_estatisticas (sanitizar_coluna dfInvalida ("X")) = estatisticasVazias :=
  ⟨by decide, C9_all_invalid dfInvalida ("X") (by decide)⟩

/-! ## Claim theorems: fuel-consumption clamp (C1) and efficiency (C3) -/

/-- C1 (counterexample): the refuel trip (initial window 40 %, final window
55 %, tank 55 L) produces *exactly the same* result dictionary as a genuine
zero-consumption trip — consumption is clamped to 0 % / 0 L but nothing in
the result flags the clamped (probable refuel) case distinctly, against the
claim. -/
theorem C1_counterexample :
    analisar_fuellvl dfRefuel ("modelo") ("combustivel") []
      = analisar_fuellvl dfConstante ("modelo") ("combustivel") []
    ∧ consumo_pct_calc dfRefuel = some 0
    ∧ consumo_litros_calc dfRefuel = some 0
    ∧ inicioJanela (serieFuellvl dfRefuel) = 40
    ∧ fimJanela (serieFuellvl dfRefuel) = 55 := by
  refine ⟨by decide, by decide, by decide, by decide, by decide⟩

/-- C1 (amended): whenever the initial-window mean does not exceed the
final-window mean, the reported consumed percentage is
`max(inicio − fim, 0) = 0` and the consumed volume is 0 L; the clamped
case is *not* flagged distinctly from a genuine zero-consumption trip (see
the counterexample: the full result dictionaries coincide). -/
theorem C1_amended (df : Tabela) (modelo combustivel : String) (vi : ValoresIdeaisFuellvl)
    (h1 : serieFuellvl df ≠ [])
    (h2 : inicioJanela (serieFuellvl df) ≤ fimJanela (serieFuellvl df)) :
    (analisar_fuellvl df modelo combustivel vi).valores.consumo_pct = some 0
    ∧ (analisar_fuellvl df modelo combustivel vi).valores.consumo_litros = some 0 := by
  have hc : consumo_calc df = some (0, 0) := by
    unfold consumo_calc
    match hm : serieFuellvl df with
    | [] => exact absurd hm h1
    | x :: xs =>
      have hle : inicioJanela (x :: xs) - fimJanela (x :: xs) ≤ 0 := by
        rw [← hm]
        exact sub_nonpos.mpr h2
      have hmax : max (inicioJanela (x :: xs) - fimJanela (x :: xs)) 0 = 0 :=
        max_eq_right hle
      simp only [hmax]
      rw [Option.some_inj]
      refine Prod.ext rfl ?_
      show pyRound2 (0 / 100 * VOLUME_TANQUE) = 0
      rw [zero_div, zero_mul, pyRound2_zero]
  constructor
  · show consumo_pct_calc df = some 0
    rw [consumo_pct_calc, hc]
    rfl
  · show consumo_litros_calc df = some 0
    rw [consumo_litros_calc, hc]
    rfl

theorem C1_witness :
    serieFuellvl dfRefuel ≠ []
    ∧ inicioJanela (serieFuellvl dfRefuel) ≤ fimJanela (serieFuellvl dfRefuel)
    ∧ (analisar_fuellvl dfRefuel ("modelo") ("combustivel") []).valores.consumo_pct = some 0
    ∧ (analisar_fuellvl dfRefuel ("modelo") ("combustivel") []).valores.consumo_litros = some 0 :=
  ⟨by decide, by decide,
    C1_amended dfRefuel ("modelo") ("combustivel") [] (by decide) (by decide)⟩

/-- The C3 example trip: distance 120 km and consumption 0 L. -/
def dfExemploC3 : Tabela :=
  [ (colTRIP, [Celula.num 0, Celula.num 120])
  , (colFUELLVL, List.replicate 5 (Celula.num 50)) ]

/-- C3: the efficiency `kml` is non-null exactly when both the traveled
distance and the consumed volume are strictly positive, in which case it is
`round(distancia / consumo, 2)`; in every other case (including the example
trip: distance 120 km, consumption 0 L) it is null, and the computation is
total (no divide-by-zero).  The code's truthiness test
`distancia_km and consumo_litros and consumo_litros > 0` coincides with
strict positivity because a computed distance is a max−min span, hence
non-negative. -/
theorem C3_kml (df : Tabela) (modelo combustivel : String) (vi : ValoresIdeaisFuellvl) :
    ((analisar_fuellvl df modelo combustivel vi).valores.kml
      = match (analisar_fuellvl df modelo combustivel vi).valores.distancia_km,
              (analisar_fuellvl df modelo combustivel vi).valores.consumo_litros with
        | some d, some cl => if 0 < d ∧ 0 < cl then some (pyRound2 (d / cl)) else none
        | _, _ => none)
    ∧ kml_calc dfExemploC3 = none
    ∧ distancia_km_calc dfExemploC3 = some 120
    ∧ consumo_litros_calc dfExemploC3 = some 0 := by
  refine ⟨?_, by decide, by decide, by decide⟩
  show kml_calc df
      = match distancia_km_calc df, consumo_litros_calc df with
        | some d, some cl => if 0 < d ∧ 0 < cl then some (pyRound2 (d / cl)) else none
        | _, _ => none
  unfold kml_calc
  match hd : distancia_km_calc df, hcl : consumo_litros_calc df with
  | none, none => rfl
  | none, some cl => rfl
  | some d, none => rfl
  | some d, some cl =>
    have h0 : 0 ≤ d := distancia_nonneg df d hd
    have hiff : (d ≠ 0 ∧ cl ≠ 0 ∧ 0 < cl) ↔ (0 < d ∧ 0 < cl) := by
      constructor
      · rintro ⟨h1, _, h3⟩
        exact ⟨lt_of_le_of_ne h0 (Ne.symm h1), h3⟩
      · rintro ⟨h1, h2⟩
        exact ⟨ne_of_gt h1, ne_of_gt h2, h2⟩
    simp only [hiff]

/-! ## Claim theorems: cylinder balance (C8) -/

/-- C8: with at least two per-cylinder means collected (and a non-zero
maximum — spark durations are positive), the reported
`desbalanceamento_%` equals `(max − min) / max · 100` over the cylinder
means (rounded to 2 decimals, as the source stores it), and whenever that
percentage exceeds 20 the overall status is the imbalance alert. -/
theorem C8_cylinder_balance (df : Tabela) (modelo combustivel : String) (vi : ValoresIdeaisSpk)
    (h2 : 2 ≤ (mediasCilindros df).length)
    (hmax : 0 < serieMax (mediasCilindros df)) :
    (analisar_spkdur df modelo combustivel vi).desbalanceamento
      = some (pyRound2 ((serieMax (mediasCilindros df) - serieMin (mediasCilindros df))
          / serieMax (mediasCilindros df) * 100))
    ∧ (20 < (serieMax (mediasCilindros df) - serieMin (mediasCilindros df))
          / serieMax (mediasCilindros df) * 100 →
        (analisar_spkdur df modelo combustivel vi).status = "Alerta") := by
  unfold analisar_spkdur
  simp only [if_pos h2, if_pos (ne_of_gt hmax)]
  split
  · exact ⟨rfl, fun _ => rfl⟩
  · next hng => exact ⟨rfl, fun hcontra => absurd hcontra hng⟩

theorem C8_witness :
    2 ≤ (mediasCilindros dfSpk).length
    ∧ 0 < serieMax (mediasCilindros dfSpk)
    ∧ (analisar_spkdur dfSpk ("modelo") ("combustivel") []).desbalanceamento = some (3333/100)
    ∧ (analisar_spkdur dfSpk ("modelo") ("combustivel") []).status = "Alerta" := by
  have h := C8_cylinder_balance dfSpk ("modelo") ("combustivel") [] (by decide) (by decide)
  exact ⟨by decide, by decide, h.1.trans (by decide), h.2 (by decide)⟩

/-! ## Claim theorems: missing columns (C4) -/

/-- A table with the mandatory time column but no `ENGI_IDLE`: the loader
raises. -/
def dfSemIdle : Tabela :=
  [ (colTIME, [Celula.num 0, Celula.num 1000])
  , (colFUELLVL, [Celula.num 50, Celula.num 50]) ]

/-- A loaded table lacking the fuel-level column (and the odometers). -/
def dfSemFuel : Tabela :=
  [ (colTIME, [Celula.num 0, Celula.num 1000])
  , (colIDLE, [Celula.num 0, Celula.num 1]) ]

/-- C4 (counterexample): the CSV loader *raises* (aborts the whole report)
when the mandatory `ENGI_IDLE` idle-state column is absent, against the
claim that the absence of any one required logical column degrades
gracefully and never raises. -/
theorem C4_counterexample :
    carregar_e_processar_csv dfSemIdle = Except.error MSG_COLUNAS_OBRIGATORIAS
    ∧ temColuna dfSemIdle colTIME = true
    ∧ temColuna dfSemIdle colIDLE = false := by
  refine ⟨rfl, rfl, rfl⟩

/-- C4 (amended): for the non-mandatory logical columns (fuel level,
trip/lifetime odometer, and every other registry column), absence degrades
gracefully: `analisar_dataframe_completo` is total, returns one entry per
registry column, and records the missing column in a `sem_dados` entry
naming it; but absence of `time(ms)` or `ENGI_IDLE` makes the loader raise
(see the counterexample). -/
theorem C4_amended (df : Tabela) (vi : ValoresIdeaisCompleta) (coluna : String)
    (hmem : coluna ∈ colunasRegistro) (habs : temColuna df coluna = false) :
    (analisar_dataframe_completo df vi).lookup coluna
      = some (EntradaAnalise.semDados (msgColunaAusente coluna))
    ∧ (analisar_dataframe_completo df vi).map Prod.fst = colunasRegistro := by
  constructor
  · unfold analisar_dataframe_completo
    rw [lookup_map_self (analisarColunaCompleta df vi) colunasRegistro coluna hmem]
    unfold analisarColunaCompleta
    rw [habs]
    rfl
  · unfold analisar_dataframe_completo
    rw [List.map_map]
    exact List.map_id colunasRegistro

theorem C4_witness :
    colFUELLVL ∈ colunasRegistro
    ∧ temColuna dfSemFuel colFUELLVL = false
    ∧ (analisar_dataframe_completo dfSemFuel []).lookup colFUELLVL
        = some (EntradaAnalise.semDados (msgColunaAusente colFUELLVL))
    ∧ (analisar_dataframe_completo dfSemFuel []).map Prod.fst = colunasRegistro :=
  ⟨by decide, by decide, C4_amended dfSemFuel [] colFUELLVL (by decide) (by decide)⟩

/-! ## Claim theorems: winsorized-mean bounds (C5) -/

lemma length_sortQ (l : List ℚ) : (sortQ l).length = l.length :=
  (List.perm_insertionSort _ l).length_eq

lemma sorted_sortQ (l : List ℚ) : List.Sorted (· ≤ ·) (sortQ l) :=
  List.sorted_insertionSort _ l

lemma perm_sortQ (l : List ℚ) : (sortQ l).Perm l := List.perm_insertionSort _ l

lemma getD_mem_sortQ (l : List ℚ) (i : ℕ) (hi : i < (sortQ l).length) :
    (sortQ l).getD i 0 ∈ l := by
  rw [List.getD_eq_get _ _ hi]
  exact (perm_sortQ l).mem_iff.mp (List.get_mem (sortQ l) i hi)

lemma sorted_getD_mono (l : List ℚ) (i j : ℕ) (hij : i ≤ j) (hj : j < (sortQ l).length) :
    (sortQ l).getD i 0 ≤ (sortQ l).getD j 0 := by
  rcases Nat.eq_or_lt_of_le hij with h | h
  · rw [h]
  · have hi : i < (sortQ l).length := lt_trans h hj
    rw [List.getD_eq_get _ _ hi, List.getD_eq_get _ _ hj]
    exact List.pairwise_iff_get.mp (sorted_sortQ l) ⟨i, hi⟩ ⟨j, hj⟩ h

lemma foldl_min_le_mem : ∀ (xs : List ℚ) (a x : ℚ), x ∈ a :: xs → xs.foldl min a ≤ x := by
  intro xs
  induction xs with
  | nil =>
    intro a x hx
    rw [List.mem_singleton.mp hx]
    exact le_refl _
  | cons c t ih =>
    intro a x hx
    simp only [List.foldl_cons]
    rcases List.mem_cons.mp hx with rfl | hx1
    · exact le_trans (foldl_min_le_init t (min x c)) (min_le_left x c)
    · rcases List.mem_cons.mp hx1 with rfl | hx2
      · exact le_trans (foldl_min_le_init t (min a x)) (min_le_right a x)
      · exact ih (min a c) x (List.mem_cons_of_mem _ hx2)

lemma mem_le_foldl_max : ∀ (xs : List ℚ) (a x : ℚ), x ∈ a :: xs → x ≤ xs.foldl max a := by
  intro xs
  induction xs with
  | nil =>
    intro a x hx
    rw [List.mem_singleton.mp hx]
    exact le_refl _
  | cons c t ih =>
    intro a x hx
    simp only [List.foldl_cons]
    rcases List.mem_cons.mp hx with rfl | hx1
    · exact le_trans (le_max_left x c) (init_le_foldl_max t (max x c))
    · rcases List.mem_cons.mp hx1 with rfl | hx2
      · exact le_trans (le_max_right a x) (init_le_foldl_max t (max a x))
      · exact ih (max a c) x (List.mem_cons_of_mem _ hx2)

lemma serieMin_le_mem (l : List ℚ) (x : ℚ) (hx : x ∈ l) : serieMin l ≤ x := by
  match l with
  | [] => exact absurd hx (List.not_mem_nil x)
  | a :: xs => exact foldl_min_le_mem xs a x hx

lemma mem_le_serieMax (l : List ℚ) (x : ℚ) (hx : x ∈ l) : x ≤ serieMax l := by
  match l with
  | [] => exact absurd hx (List.not_mem_nil x)
  | a :: xs => exact mem_le_foldl_max xs a x hx

lemma serieMean_le_of_forall_le (l : List ℚ) (hl : l ≠ []) (b : ℚ) (hb : ∀ x ∈ l, x ≤ b) :
    serieMean l ≤ b := by
  have hlen : 0 < (l.length : ℚ) := by exact_mod_cast List.length_pos.mpr hl
  rw [serieMean, div_le_iff₀ hlen]
  have hsum := List.sum_le_card_nsmul l b hb
  rwa [nsmul_eq_mul, mul_comm] at hsum

lemma le_serieMean_of_forall_le (l : List ℚ) (hl : l ≠ []) (b : ℚ) (hb : ∀ x ∈ l, b ≤ x) :
    b ≤ serieMean l := by
  have hlen : 0 < (l.length : ℚ) := by exact_mod_cast List.length_pos.mpr hl
  rw [serieMean, le_div_iff₀ hlen]
  have hsum := List.card_nsmul_le_sum l b hb
  rwa [nsmul_eq_mul, mul_comm] at hsum

/-- The lower interpolation index of `quantile`. -/
def qIdx (l : List ℚ) (p : ℚ) : ℕ := (⌊p * (((sortQ l).length : ℚ) - 1)⌋).toNat

lemma quantile_eq (l : List ℚ) (hl : l ≠ []) (p : ℚ) :
    quantile l p = (sortQ l).getD (qIdx l p) 0
      + (p * (((sortQ l).length : ℚ) - 1) - ((qIdx l p : ℕ) : ℚ))
        * ((sortQ l).getD (min (qIdx l p + 1) ((sortQ l).length - 1)) 0
            - (sortQ l).getD (qIdx l p) 0) := by
  have hne : (sortQ l).length ≠ 0 := by
    rw [length_sortQ]
    exact fun h => hl (List.length_eq_zero.mp h)
  unfold quantile qIdx
  simp only [if_neg hne]

lemma quantile_bounds (l : List ℚ) (hl : l ≠ []) (p : ℚ) (hp0 : 0 ≤ p) (hp1 : p ≤ 1) :
    (sortQ l).getD (qIdx l p) 0 ≤ quantile l p
    ∧ quantile l p ≤ (sortQ l).getD (min (qIdx l p + 1) ((sortQ l).length - 1)) 0
    ∧ qIdx l p ≤ (sortQ l).length - 1 := by
  have hlen0 : 0 < (sortQ l).length := by
    rw [length_sortQ]
    exact List.length_pos.mpr hl
  have hm : (0:ℚ) ≤ ((sortQ l).length : ℚ) - 1 := by
    have : (1:ℚ) ≤ ((sortQ l).length : ℚ) := by exact_mod_cast hlen0
    linarith
  have hh0 : 0 ≤ p * (((sortQ l).length : ℚ) - 1) := mul_nonneg hp0 hm
  have hfl0 : 0 ≤ ⌊p * (((sortQ l).length : ℚ) - 1)⌋ := Int.floor_nonneg.mpr hh0
  have hcast : ((qIdx l p : ℕ) : ℚ) = ((⌊p * (((sortQ l).length : ℚ) - 1)⌋ : ℤ) : ℚ) := by
    unfold qIdx
    exact_mod_cast congrArg (fun z : ℤ => (z : ℚ)) (Int.toNat_of_nonneg hfl0)
  have hfrac0 : 0 ≤ p * (((sortQ l).length : ℚ) - 1) - ((qIdx l p : ℕ) : ℚ) := by
    rw [hcast]
    have := Int.floor_le (p * (((sortQ l).length : ℚ) - 1))
    linarith
  have hfrac1 : p * (((sortQ l).length : ℚ) - 1) - ((qIdx l p : ℕ) : ℚ) ≤ 1 := by
    rw [hcast]
    have := Int.lt_floor_add_one (p * (((sortQ l).length : ℚ) - 1))
    linarith
  have hidx : qIdx l p ≤ (sortQ l).length - 1 := by
    have h1 : p * (((sortQ l).length : ℚ) - 1) ≤ ((sortQ l).length : ℚ) - 1 :=
      mul_le_of_le_one_left hm hp1
    have h1n : (((sortQ l).length : ℚ) - 1) = (((sortQ l).length - 1 : ℕ) : ℚ) := by
      have : 1 ≤ (sortQ l).length := hlen0
      push_cast [Nat.cast_sub this]
      ring
    have h2 : ⌊p * (((sortQ l).length : ℚ) - 1)⌋ ≤ (((sortQ l).length - 1 : ℕ) : ℤ) := by
      have h1b : p * ((((sortQ l).length - 1 : ℕ)) : ℚ) ≤ (((sortQ l).length - 1 : ℕ) : ℚ) := by
        rw [← h1n]
        exact h1
      rw [h1n]
      exact le_trans (Int.floor_le_floor h1b) (le_of_eq (Int.floor_natCast _))
    exact Int.toNat_le.mpr h2
  have hqi_lt : qIdx l p < (sortQ l).length := by omega
  have humin_lt : min (qIdx l p + 1) ((sortQ l).length - 1) < (sortQ l).length := by omega
  have hii : qIdx l p ≤ min (qIdx l p + 1) ((sortQ l).length - 1) := by omega
  have hlohi : (sortQ l).getD (qIdx l p) 0
      ≤ (sortQ l).getD (min (qIdx l p + 1) ((sortQ l).length - 1)) 0 :=
    sorted_getD_mono l _ _ hii humin_lt
  rw [quantile_eq l hl p]
  refine ⟨?_, ?_, hidx⟩
  · nlinarith [mul_nonneg hfrac0 (sub_nonneg.mpr hlohi)]
  · nlinarith [mul_le_of_le_one_left (sub_nonneg.mpr hlohi) hfrac1]

lemma qIdx_05 (l : List ℚ) (h1 : 1 ≤ l.length) :
    qIdx l (5/100) = (l.length - 1) / 20 := by
  unfold qIdx
  rw [length_sortQ]
  have hcast : ((l.length : ℚ) - 1) = ((l.length - 1 : ℕ) : ℚ) := by
    push_cast [Nat.cast_sub h1]
    ring
  rw [hcast]
  have hval : (5/100 : ℚ) * ((l.length - 1 : ℕ) : ℚ) = ((l.length - 1 : ℕ) : ℚ) / ((20 : ℕ) : ℚ) := by
    push_cast
    ring
  rw [hval, Int.floor_toNat, Nat.floor_div_nat, Nat.floor_natCast]

lemma qIdx_95 (l : List ℚ) (h1 : 1 ≤ l.length) :
    qIdx l (95/100) = 19 * (l.length - 1) / 20 := by
  unfold qIdx
  rw [length_sortQ]
  have hcast : ((l.length : ℚ) - 1) = ((l.length - 1 : ℕ) : ℚ) := by
    push_cast [Nat.cast_sub h1]
    ring
  rw [hcast]
  have hval : (95/100 : ℚ) * ((l.length - 1 : ℕ) : ℚ)
      = ((19 * (l.length - 1) : ℕ) : ℚ) / ((20 : ℕ) : ℚ) := by
    push_cast
    ring
  rw [hval, Int.floor_toNat, Nat.floor_div_nat, Nat.floor_natCast]

/-- C5: for a series of at least 4 values, the winsorized mean — the series
clipped at its 5th and 95th percentiles, then averaged — lies between the
5th- and 95th-percentile values, and within `[min, max]` of the raw
series. -/
theorem C5_winsorized_mean (l : List ℚ) (h4 : 4 ≤ l.length) :
    quantile l (5/100) ≤ media_winsorizada l
    ∧ media_winsorizada l ≤ quantile l (95/100)
    ∧ serieMin l ≤ media_winsorizada l
    ∧ media_winsorizada l ≤ serieMax l := by
  have hl : l ≠ [] := by
    intro h
    rw [h] at h4
    simp at h4
  have h1 : 1 ≤ l.length := le_trans (by norm_num) h4
  obtain ⟨hq05_lo, hq05_hi, hq05_idx⟩ := quantile_bounds l hl (5/100) (by norm_num) (by norm_num)
  obtain ⟨hq95_lo, hq95_hi, hq95_idx⟩ := quantile_bounds l hl (95/100) (by norm_num) (by norm_num)
  have hslen : (sortQ l).length = l.length := length_sortQ l
  have hidxle : min (qIdx l (5/100) + 1) ((sortQ l).length - 1) ≤ qIdx l (95/100) := by
    rw [qIdx_05 l h1, qIdx_95 l h1]
    have harith : (l.length - 1) / 20 + 1 ≤ 19 * (l.length - 1) / 20 := by omega
    exact le_trans (min_le_left _ _) harith
  have hq95_lt : qIdx l (95/100) < (sortQ l).length := by
    rw [hslen] at hq95_idx ⊢
    omega
  have h05_95 : quantile l (5/100) ≤ quantile l (95/100) :=
    le_trans hq05_hi (le_trans (sorted_getD_mono l _ _ hidxle hq95_lt) hq95_lo)
  have hq05_lt : qIdx l (5/100) < (sortQ l).length := by
    rw [hslen] at hq05_idx ⊢
    omega
  have hmin_q05 : serieMin l ≤ quantile l (5/100) :=
    le_trans (serieMin_le_mem l _ (getD_mem_sortQ l _ hq05_lt)) hq05_lo
  have humin_lt : min (qIdx l (95/100) + 1) ((sortQ l).length - 1) < (sortQ l).length := by
    rw [hslen] at hq95_idx ⊢
    omega
  have hq95_max : quantile l (95/100) ≤ serieMax l :=
    le_trans hq95_hi (mem_le_serieMax l _ (getD_mem_sortQ l _ humin_lt))
  have hclip : ∀ y ∈ l.map (fun x => min (max x (quantile l (5/100))) (quantile l (95/100))),
      quantile l (5/100) ≤ y ∧ y ≤ quantile l (95/100) := by
    intro y hy
    obtain ⟨x, _, rfl⟩ := List.mem_map.mp hy
    exact ⟨le_min (le_max_right x _) h05_95, min_le_right _ _⟩
  have hmapne : l.map (fun x => min (max x (quantile l (5/100))) (quantile l (95/100))) ≠ [] := by
    simpa using hl
  have hwm : media_winsorizada l
      = serieMean (l.map (fun x => min (max x (quantile l (5/100))) (quantile l (95/100)))) := rfl
  have hlow : quantile l (5/100) ≤ media_winsorizada l := by
    rw [hwm]
    exact le_serieMean_of_forall_le _ hmapne _ (fun y hy => (hclip y hy).1)
  have hhigh : media_winsorizada l ≤ quantile l (95/100) := by
    rw [hwm]
    exact serieMean_le_of_forall_le _ hmapne _ (fun y hy => (hclip y hy).2)
  exact ⟨hlow, hhigh, le_trans hmin_q05 hlow, le_trans hhigh hq95_max⟩

theorem C5_witness :
    4 ≤ ([1, 2, 3, 4] : List ℚ).length
    ∧ (quantile [1, 2, 3, 4] (5/100) ≤ media_winsorizada [1, 2, 3, 4]
        ∧ media_winsorizada [1, 2, 3, 4] ≤ quantile [1, 2, 3, 4] (95/100)
        ∧ serieMin [1, 2, 3, 4] ≤ media_winsorizada [1, 2, 3, 4]
        ∧ media_winsorizada [1, 2, 3, 4] ≤ serieMax [1, 2, 3, 4]) :=
  ⟨by decide, C5_winsorized_mean [1, 2, 3, 4] (by decide)⟩

/-! ## Claim theorems: sanitization idempotence (C7) — decimal rationals -/

/-- A rational is *decimal* when some power of ten clears its denominator —
exactly the values `pd.to_numeric` can produce from a finite decimal
string. -/
def EhDecimal (q : ℚ) : Prop := ∃ k : ℕ, (q * 10 ^ k).den = 1

lemma rat_eq_num_of_den_one (x : ℚ) (hx : x.den = 1) : x = ((x.num : ℤ) : ℚ) := by
  conv_lhs => rw [← Rat.num_div_den x]
  rw [hx]
  push_cast
  ring

lemma den_one_mul_pow (x : ℚ) (n : ℕ) (hx : x.den = 1) : (x * 10 ^ n).den = 1 := by
  rw [rat_eq_num_of_den_one x hx]
  have h : ((x.num : ℤ) : ℚ) * 10 ^ n = ((x.num * 10 ^ n : ℤ) : ℚ) := by
    push_cast
    ring
  rw [h, Rat.den_intCast]

lemma ehDecimal_natCast_div_pow (N f : ℕ) : EhDecimal ((N : ℚ) / 10 ^ f) := by
  refine ⟨f, ?_⟩
  rw [div_mul_cancel₀]
  · exact Rat.den_natCast N
  · positivity

lemma ehDecimal_neg (q : ℚ) (h : EhDecimal q) : EhDecimal (-q) := by
  obtain ⟨k, hk⟩ := h
  refine ⟨k, ?_⟩
  rw [neg_mul, Rat.neg_den]
  exact hk

lemma ehDecimal_mul_zpow (q : ℚ) (e : ℤ) (h : EhDecimal q) : EhDecimal (q * (10:ℚ) ^ e) := by
  obtain ⟨k, hk⟩ := h
  rcases Int.le_or_lt 0 e with he | he
  · obtain ⟨n, rfl⟩ := Int.eq_ofNat_of_zero_le he
    refine ⟨k, ?_⟩
    rw [zpow_natCast]
    have harr : q * (10:ℚ) ^ n * 10 ^ k = (q * 10 ^ k) * 10 ^ n := by ring
    rw [harr]
    exact den_one_mul_pow _ n hk
  · refine ⟨k + e.natAbs, ?_⟩
    have hz : (10:ℚ) ^ e * (10:ℚ) ^ (e.natAbs : ℕ) = 1 := by
      rw [← zpow_natCast (10:ℚ) e.natAbs, ← zpow_add₀ (by norm_num : (10:ℚ) ≠ 0)]
      have hzero : e + (e.natAbs : ℤ) = 0 := by omega
      rw [hzero, zpow_zero]
    have harr : q * (10:ℚ) ^ e * 10 ^ (k + e.natAbs)
        = (q * 10 ^ k) * ((10:ℚ) ^ e * (10:ℚ) ^ (e.natAbs : ℕ)) := by
      rw [pow_add]
      ring
    rw [harr, hz, mul_one]
    exact hk

lemma countFactorAux_dvd : ∀ (fuel p n : ℕ), p ^ countFactorAux fuel p n ∣ n := by
  intro fuel
  induction fuel with
  | zero =>
    intro p n
    simpa [countFactorAux] using one_dvd n
  | succ f ih =>
    intro p n
    unfold countFactorAux
    split
    · next hcond =>
      obtain ⟨hp, hn, hmod⟩ := hcond
      have hdvd : p ∣ n := Nat.dvd_of_mod_eq_zero hmod
      rw [pow_succ, mul_comm]
      exact (Nat.dvd_div_iff hdvd).mp (ih p (n / p))
    · simpa using one_dvd n

lemma countFactorAux_max : ∀ (fuel p n : ℕ), 2 ≤ p → n ≠ 0 → n ≤ fuel →
    ¬ p ^ (countFactorAux fuel p n + 1) ∣ n := by
  intro fuel
  induction fuel with
  | zero => intro p n _ hn hle; omega
  | succ f ih =>
    intro p n hp hn hle
    unfold countFactorAux
    split
    · next hcond =>
      obtain ⟨_, _, hmod⟩ := hcond
      intro hdvd
      have hdvdp : p ∣ n := Nat.dvd_of_mod_eq_zero hmod
      have heq : n = p * (n / p) := (Nat.mul_div_cancel' hdvdp).symm
      have hq0 : n / p ≠ 0 := by
        intro h0
        rw [h0, mul_zero] at heq
        exact hn heq
      have hqf : n / p ≤ f := by
        have hlt : n / p < n := Nat.div_lt_self (Nat.pos_of_ne_zero hn) (by omega)
        omega
      apply ih p (n / p) hp hq0 hqf
      rw [Nat.dvd_div_iff hdvdp, ← pow_succ']
      exact hdvd
    · next hcond =>
      intro hdvd
      have hmod : n % p ≠ 0 := by
        intro h0
        exact hcond ⟨hp, hn, h0⟩
      rw [pow_one] at hdvd
      exact hmod (Nat.mod_eq_zero_of_dvd hdvd)

lemma le_countFactor (p n t : ℕ) (hp : 2 ≤ p) (hn : n ≠ 0) (h : p ^ t ∣ n) :
    t ≤ countFactor p n := by
  by_contra hlt
  push_neg at hlt
  have hd : p ^ (countFactor p n + 1) ∣ n := dvd_trans (pow_dvd_pow p (by omega)) h
  exact countFactorAux_max n p n hp hn (le_refl n) hd

lemma den_dvd_ten_pow_decExp (q : ℚ) (k : ℕ) (h : q.den ∣ 10 ^ k) :
    q.den ∣ 10 ^ decExp q := by
  have hden0 : q.den ≠ 0 := q.den_nz
  have h2a : 2 ^ countFactor 2 q.den ∣ q.den := countFactorAux_dvd q.den 2 q.den
  have heq : q.den = 2 ^ countFactor 2 q.den * (q.den / 2 ^ countFactor 2 q.den) :=
    (Nat.mul_div_cancel' h2a).symm
  have hm0 : q.den / 2 ^ countFactor 2 q.den ≠ 0 := by
    intro h0
    rw [h0, mul_zero] at heq
    exact hden0 heq
  have hm2 : ¬ 2 ∣ q.den / 2 ^ countFactor 2 q.den := by
    rintro ⟨c, hc⟩
    have hdd : 2 ^ (countFactor 2 q.den + 1) ∣ q.den := by
      refine ⟨c, ?_⟩
      rw [pow_succ]
      calc q.den = 2 ^ countFactor 2 q.den * (q.den / 2 ^ countFactor 2 q.den) := heq
        _ = 2 ^ countFactor 2 q.den * (2 * c) := by rw [← hc]
        _ = 2 ^ countFactor 2 q.den * 2 * c := by ring
    exact countFactorAux_max q.den 2 q.den (by norm_num) hden0 (le_refl _) hdd
  have hmdvd_den : q.den / 2 ^ countFactor 2 q.den ∣ q.den := ⟨2 ^ countFactor 2 q.den, by
    rw [mul_comm]
    exact heq⟩
  have hmd : q.den / 2 ^ countFactor 2 q.den ∣ 10 ^ k := dvd_trans hmdvd_den h
  have h10 : (10:ℕ) ^ k = 2 ^ k * 5 ^ k := by
    norm_num [← mul_pow]
  have hcop : Nat.Coprime (q.den / 2 ^ countFactor 2 q.den) (2 ^ k) :=
    Nat.Coprime.pow_right k
      (((Nat.Prime.coprime_iff_not_dvd Nat.prime_two).mpr hm2).symm)
  have hm5 : q.den / 2 ^ countFactor 2 q.den ∣ 5 ^ k := by
    rw [h10] at hmd
    exact hcop.dvd_of_dvd_mul_left hmd
  obtain ⟨c, _, hmc⟩ := (Nat.dvd_prime_pow (by norm_num : Nat.Prime 5)).mp hm5
  have h5c : 5 ^ c ∣ q.den := hmc ▸ hmdvd_den
  have hcb : c ≤ countFactor 5 q.den := le_countFactor 5 q.den c (by norm_num) hden0 h5c
  have hK : q.den ∣ 2 ^ decExp q * 5 ^ decExp q := by
    calc q.den = 2 ^ countFactor 2 q.den * (q.den / 2 ^ countFactor 2 q.den) := heq
      _ = 2 ^ countFactor 2 q.den * 5 ^ c := by rw [hmc]
      _ ∣ 2 ^ decExp q * 5 ^ decExp q :=
          mul_dvd_mul (pow_dvd_pow 2 (le_max_left _ _))
            (pow_dvd_pow 5 (le_trans hcb (le_max_right _ _)))
  have h10K : (10:ℕ) ^ decExp q = 2 ^ decExp q * 5 ^ decExp q := by
    norm_num [← mul_pow]
  rw [h10K]
  exact hK

lemma den_dvd_of_mul_pow_den_one (q : ℚ) (k : ℕ) (h : (q * 10 ^ k).den = 1) :
    q.den ∣ 10 ^ k := by
  have hv : (((q * 10 ^ k).num : ℤ) : ℚ) = q * 10 ^ k :=
    (rat_eq_num_of_den_one _ h).symm
  have hq : q = Rat.divInt (q * 10 ^ k).num ((10:ℤ) ^ k) := by
    rw [Rat.divInt_eq_div]
    rw [hv]
    have hne : ((10:ℚ)) ^ k ≠ 0 := by positivity
    push_cast
    field_simp
  have hdvd := Rat.den_dvd (q * 10 ^ k).num ((10:ℤ) ^ k)
  rw [← hq] at hdvd
  exact_mod_cast hdvd

/-- The decimal shift chosen by `renderQ` clears the denominator of any
decimal rational. -/
lemma decExp_den_one (q : ℚ) (h : EhDecimal q) : (q * 10 ^ decExp q).den = 1 := by
  obtain ⟨k, hk⟩ := h
  have h1 : q.den ∣ 10 ^ k := den_dvd_of_mul_pow_den_one q k hk
  have h2 : q.den ∣ 10 ^ decExp q := den_dvd_ten_pow_decExp q k h1
  obtain ⟨c, hc⟩ := h2
  set K := decExp q with hKdef
  have hden : (q.den : ℚ) ≠ 0 := by
    exact_mod_cast q.den_nz
  have hqc : q * 10 ^ K = ((q.num * c : ℤ) : ℚ) := by
    have h1 : ((10:ℚ)) ^ K = ((q.den * c : ℕ) : ℚ) := by
      rw [← hc]
      push_cast
      ring
    conv_lhs => rw [← Rat.num_div_den q]
    rw [h1]
    push_cast
    field_simp
    ring
  rw [hqc, Rat.den_intCast]

lemma parseMant_decimal (cs : List Char) (q : ℚ) (h : parseMant cs = some q) : EhDecimal q := by
  unfold parseMant at h
  dsimp only at h
  split at h
  · rw [Option.some_inj] at h
    rw [← h]
    exact ehDecimal_natCast_div_pow _ _
  · exact absurd h (by simp)

lemma parsePos_decimal (cs : List Char) (q : ℚ) (h : parsePos cs = some q) : EhDecimal q := by
  unfold parsePos at h
  dsimp only at h
  rcases hbe : (breakAtExp cs).2 with _ | ex
  · rw [hbe] at h
    exact parseMant_decimal _ q h
  · rw [hbe] at h
    dsimp only at h
    rcases hm : parseMant (breakAtExp cs).1 with _ | mval
    · rw [hm] at h
      simp at h
    · rw [hm] at h
      rcases he : parseExpPart ex with _ | e
      · rw [he] at h
        simp at h
      · rw [he] at h
        dsimp only at h
        rw [Option.some_inj] at h
        rw [← h]
        exact ehDecimal_mul_zpow mval e (parseMant_decimal _ _ hm)

lemma parseFloat_decimal (cs : List Char) (q : ℚ) (h : parseFloat cs = some q) : EhDecimal q := by
  match cs with
  | [] => exact absurd h (by simp [parseFloat])
  | c :: rest =>
    simp only [parseFloat] at h
    split at h
    · exact parsePos_decimal _ q h
    · split at h
      · rcases hp : parsePos rest with _ | v
        · rw [hp] at h
          simp at h
        · rw [hp] at h
          simp only [Option.map_some'] at h
          rw [Option.some_inj] at h
          rw [← h]
          exact ehDecimal_neg v (parsePos_decimal _ _ hp)
      · exact parsePos_decimal _ q h

lemma limpaEParse_decimal (cel : Celula) (q : ℚ) (h : limpaEParse cel = some q) : EhDecimal q := by
  unfold limpaEParse at h
  dsimp only at h
  split at h
  · exact absurd h (by simp)
  · exact parseFloat_decimal _ q h

/-! ## C7 — digit rendering and parsing round trip -/

lemma natDigitsRevAux_ofDigits : ∀ (fuel n : ℕ), n ≤ fuel →
    Nat.ofDigits 10 (natDigitsRevAux fuel n) = n := by
  intro fuel
  induction fuel with
  | zero =>
    intro n hn
    have : n = 0 := by omega
    rw [this]
    rfl
  | succ f ih =>
    intro n hn
    unfold natDigitsRevAux
    split
    · next h0 => rw [h0]; rfl
    · next h0 =>
      rw [Nat.ofDigits_cons]
      have hq : n / 10 ≤ f := by
        have := Nat.div_lt_self (Nat.pos_of_ne_zero h0) (by norm_num : 1 < 10)
        omega
      rw [ih (n / 10) hq]
      omega

lemma natDigitsRevAux_lt : ∀ (fuel n : ℕ), ∀ d ∈ natDigitsRevAux fuel n, d < 10 := by
  intro fuel
  induction fuel with
  | zero => intro n d hd; simp [natDigitsRevAux] at hd
  | succ f ih =>
    intro n d hd
    unfold natDigitsRevAux at hd
    split at hd
    · simp at hd
    · rcases List.mem_cons.mp hd with rfl | hd2
      · exact Nat.mod_lt n (by norm_num)
      · exact ih (n / 10) d hd2

/-- The ten digit characters. -/
def tenChars : List Char := ['0', '1', '2', '3', '4', '5', '6', '7', '8', '9']

lemma digitChar_toNat (d : ℕ) (hd : d < 10) : (digitChar d).toNat - 48 = d := by
  interval_cases d <;> rfl

lemma digitChar_mem (d : ℕ) : digitChar d ∈ tenChars := by
  unfold digitChar tenChars
  by_cases h : d < 10
  · rw [List.getD_eq_get _ _ (by simpa using h)]
    exact List.get_mem _ _ _
  · rw [List.getD_eq_default _ _ (by simpa using le_of_not_lt h)]
    decide

lemma tenChars_props : ∀ c ∈ tenChars,
    isDigitCh c = true ∧ c ≠ '.' ∧ (decide (c = 'e') || decide (c = 'E')) = false
    ∧ c ≠ '+' ∧ c ≠ '-' ∧ isSpaceCh c = false ∧ c ≠ ',' ∧ c ≠ '%' := by decide

lemma digitsVal_replicate_zero (z : ℕ) (B : List Char) :
    digitsVal (List.replicate z '0' ++ B) = digitsVal B := by
  induction z with
  | zero => rfl
  | succ z ih =>
    rw [List.replicate_succ, List.cons_append]
    show digitsVal (List.replicate z '0' ++ B) = digitsVal B
    exact ih

lemma foldl_digits_map (L : List ℕ) (hL : ∀ d ∈ L, d < 10) (a : ℕ) :
    (L.map digitChar).foldl (fun x c => x * 10 + (c.toNat - 48)) a
      = L.foldl (fun x d => x * 10 + d) a := by
  induction L generalizing a with
  | nil => rfl
  | cons d t ih =>
    simp only [List.map_cons, List.foldl_cons]
    rw [digitChar_toNat d (hL d (List.mem_cons_self d t))]
    exact ih (fun x hx => hL x (List.mem_cons_of_mem _ hx)) _

lemma foldl_rev_eq_ofDigits (L : List ℕ) :
    L.reverse.foldl (fun x d => x * 10 + d) 0 = Nat.ofDigits 10 L := by
  induction L with
  | nil => rfl
  | cons d t ih =>
    rw [List.reverse_cons, List.foldl_append, ih, List.foldl_cons, List.foldl_nil,
      Nat.ofDigits_cons]
    omega

lemma digitsVal_digits (n : ℕ) :
    digitsVal ((natDigitsRev n).reverse.map digitChar) = n := by
  unfold digitsVal natDigitsRev
  rw [foldl_digits_map _ (fun d hd => natDigitsRevAux_lt n n d (List.mem_reverse.mp hd))]
  rw [foldl_rev_eq_ofDigits]
  exact natDigitsRevAux_ofDigits n n (le_refl n)

lemma digitsVal_append_zero (A : List Char) : digitsVal (A ++ ['0']) = 10 * digitsVal A := by
  unfold digitsVal
  rw [List.foldl_append]
  show A.foldl (fun a c => a * 10 + (c.toNat - 48)) 0 * 10 + (48 - 48)
      = 10 * A.foldl (fun a c => a * 10 + (c.toNat - 48)) 0
  omega

lemma dropWhile_eq_self_of (p : Char → Bool) (l : List Char) (h : ∀ c ∈ l, p c = false) :
    l.dropWhile p = l := by
  cases l with
  | nil => rfl
  | cons c t =>
    rw [List.dropWhile_cons, h c (List.mem_cons_self c t)]
    simp

lemma stripChars_eq_self (cs : List Char) (h : ∀ c ∈ cs, isSpaceCh c = false) :
    stripChars cs = cs := by
  unfold stripChars
  rw [dropWhile_eq_self_of _ _ h]
  rw [dropWhile_eq_self_of _ _ (fun c hc => h c (List.mem_reverse.mp hc))]
  rw [List.reverse_reverse]

lemma map_comma_eq_self (cs : List Char) (h : ∀ c ∈ cs, c ≠ ',') :
    cs.map (fun c => if c = ',' then '.' else c) = cs := by
  induction cs with
  | nil => rfl
  | cons c t ih =>
    rw [List.map_cons, if_neg (h c (List.mem_cons_self c t)),
      ih (fun x hx => h x (List.mem_cons_of_mem _ hx))]

lemma contains_eq_false_of (ts : List (List Char)) (cs : List Char) (h : ∀ t ∈ ts, cs ≠ t) :
    ts.contains cs = false := by
  induction ts with
  | nil => rfl
  | cons t ts' ih =>
    rw [List.contains_cons]
    rw [beq_false_of_ne (h t (List.mem_cons_self t ts')),
      ih (fun x hx => h x (List.mem_cons_of_mem _ hx))]
    rfl

lemma breakAtExp_none (cs : List Char) (h : ∀ c ∈ cs, (c = 'e' || c = 'E') = false) :
    breakAtExp cs = (cs, none) := by
  induction cs with
  | nil => rfl
  | cons c t ih =>
    unfold breakAtExp
    rw [if_neg (by simpa using h c (List.mem_cons_self c t))]
    rw [ih (fun x hx => h x (List.mem_cons_of_mem _ hx))]

lemma breakAtDot_append (ip rest : List Char) (h : ∀ c ∈ ip, c ≠ '.') :
    breakAtDot (ip ++ '.' :: rest) = (ip, some rest) := by
  induction ip with
  | nil =>
    show breakAtDot ('.' :: rest) = ([], some rest)
    unfold breakAtDot
    rw [if_pos rfl]
  | cons c t ih =>
    rw [List.cons_append]
    unfold breakAtDot
    rw [if_neg (h c (List.mem_cons_self c t))]
    rw [ih (fun x hx => h x (List.mem_cons_of_mem _ hx))]

lemma parsePos_digits (ip fp : List Char) (hip : ip ≠ [])
    (hipc : ∀ c ∈ ip, c ∈ tenChars) (hfpc : ∀ c ∈ fp, c ∈ tenChars) :
    parsePos (ip ++ '.' :: fp) = some ((digitsVal (ip ++ fp) : ℚ) / 10 ^ fp.length) := by
  have hnoE : ∀ c ∈ ip ++ '.' :: fp, (c = 'e' || c = 'E') = false := by
    intro c hc
    rcases List.mem_append.mp hc with h1 | h1
    · exact (tenChars_props c (hipc c h1)).2.2.1
    · rcases List.mem_cons.mp h1 with rfl | h2
      · decide
      · exact (tenChars_props c (hfpc c h2)).2.2.1
  unfold parsePos
  rw [breakAtExp_none _ hnoE]
  dsimp only
  unfold parseMant
  rw [breakAtDot_append ip fp
    (fun c hc => (tenChars_props c (hipc c hc)).2.1)]
  dsimp only [Option.getD_some]
  have hcond : (ip.all isDigitCh && fp.all isDigitCh && !(ip ++ fp).isEmpty) = true := by
    have h1 : ip.all isDigitCh = true :=
      List.all_eq_true.mpr (fun c hc => (tenChars_props c (hipc c hc)).1)
    have h2 : fp.all isDigitCh = true :=
      List.all_eq_true.mpr (fun c hc => (tenChars_props c (hfpc c hc)).1)
    have h3 : (ip ++ fp).isEmpty = false := by
      rcases List.exists_cons_of_ne_nil hip with ⟨h, t, rfl⟩
      rfl
    rw [h1, h2, h3]
    rfl
  rw [if_pos hcond]

lemma parseFloat_cons_digit (c : Char) (rest : List Char) (hc : c ∈ tenChars) :
    parseFloat (c :: rest) = parsePos (c :: rest) := by
  simp only [parseFloat]
  rw [if_neg ((tenChars_props c hc).2.2.2.1), if_neg ((tenChars_props c hc).2.2.2.2.1)]

lemma parseFloat_neg (rest : List Char) :
    parseFloat ('-' :: rest) = (parsePos rest).map (fun q => -q) := by
  simp [parseFloat]

lemma cast_natAbs_of_nonneg (m : ℤ) (h : 0 ≤ m) : ((m.natAbs : ℕ) : ℚ) = (m : ℚ) := by
  rw [Int.cast_natAbs]
  exact_mod_cast abs_of_nonneg h

lemma cast_natAbs_of_neg (m : ℤ) (h : m < 0) : ((m.natAbs : ℕ) : ℚ) = -(m : ℚ) := by
  rw [Int.cast_natAbs]
  exact_mod_cast abs_of_neg h

/-- A decimal rational survives the full sanitizer cell pipeline —
stringify (`astype(str)`), clean, sentinel-check, reparse — unchanged. -/
lemma limpaEParse_num_roundtrip (q : ℚ) (hq : EhDecimal q) :
    limpaEParse (Celula.num q) = some q := by
  have hden := decExp_den_one q hq
  set K := decExp q with hKdef
  set m := (q * 10 ^ K).num with hmdef
  have hv : q * 10 ^ K = (m : ℚ) := rat_eq_num_of_den_one _ hden
  have h10K : ((10:ℚ)) ^ K ≠ 0 := by positivity
  have hq_eq : q = (m : ℚ) / 10 ^ K := by
    rw [← hv]
    field_simp
  set digs0 := (natDigitsRev m.natAbs).reverse.map digitChar with hd0
  set digs := List.replicate (K + 1 - digs0.length) '0' ++ digs0 with hdigs
  have hdigsmem : ∀ c ∈ digs, c ∈ tenChars := by
    intro c hc
    rw [hdigs] at hc
    rcases List.mem_append.mp hc with h1 | h1
    · rw [List.eq_of_mem_replicate h1]
      decide
    · rw [hd0] at h1
      obtain ⟨d, _, rfl⟩ := List.mem_map.mp h1
      exact digitChar_mem d
  have hdigsval : digitsVal digs = m.natAbs := by
    rw [hdigs, digitsVal_replicate_zero, hd0, digitsVal_digits]
  have hlen : K + 1 ≤ digs.length := by
    rw [hdigs, List.length_append, List.length_replicate]
    omega
  set t := digs.length - K with htdef
  have ht1 : 1 ≤ t := by omega
  have htakelen : (digs.take t).length = t := by
    rw [List.length_take]
    omega
  have htakene : digs.take t ≠ [] := by
    intro h0
    rw [h0] at htakelen
    simp at htakelen
    omega
  have hdroplen : (digs.drop t).length = K := by
    rw [List.length_drop]
    omega
  have hipc : ∀ c ∈ digs.take t, c ∈ tenChars :=
    fun c hc => hdigsmem c (List.mem_of_mem_take hc)
  set fps := (if K = 0 then ['0'] else digs.drop t) with hfps
  have hfpc : ∀ c ∈ fps, c ∈ tenChars := by
    intro c hc
    rw [hfps] at hc
    split at hc
    · rw [List.mem_singleton.mp hc]
      decide
    · exact hdigsmem c (List.mem_of_mem_drop hc)
  have hval : (digitsVal (digs.take t ++ fps) : ℚ) / 10 ^ fps.length
      = ((m.natAbs : ℕ) : ℚ) / 10 ^ K := by
    rw [hfps]
    by_cases hK0 : K = 0
    · rw [if_pos hK0]
      have hteq : t = digs.length := by omega
      rw [hteq, List.take_length, digitsVal_append_zero, hdigsval, hK0]
      push_cast
      field_simp
    · rw [if_neg hK0, List.take_append_drop, hdigsval, hdroplen]
  have hL : (renderQ q).toList
      = (if m < 0 then ['-'] else []) ++ digs.take t ++ '.' :: fps := by
    unfold renderQ
    rw [if_pos hden]
    rfl
  have hLmem : ∀ c ∈ (renderQ q).toList,
      isSpaceCh c = false ∧ c ≠ ',' ∧ c ≠ '%' := by
    intro c hc
    rw [hL] at hc
    rcases List.mem_append.mp hc with h1 | h1
    · rcases List.mem_append.mp h1 with h2 | h2
      · split at h2
        · rw [List.mem_singleton.mp h2]
          exact ⟨by decide, by decide, by decide⟩
        · simp at h2
      · have := tenChars_props c (hipc c h2)
        exact ⟨this.2.2.2.2.2.1, this.2.2.2.2.2.2.1, this.2.2.2.2.2.2.2⟩
    · rcases List.mem_cons.mp h1 with rfl | h2
      · exact ⟨by decide, by decide, by decide⟩
      · have := tenChars_props c (hfpc c h2)
        exact ⟨this.2.2.2.2.2.1, this.2.2.2.2.2.2.1, this.2.2.2.2.2.2.2⟩
  have hclean : limparCelula (renderQ q) = (renderQ q).toList := by
    unfold limparCelula
    rw [stripChars_eq_self _ (fun c hc => (hLmem c hc).1)]
    rw [map_comma_eq_self _ (fun c hc => (hLmem c hc).2.1)]
    rw [List.filter_eq_self.mpr (fun c hc => by
      have hcc := (hLmem c hc).2.2
      simp [hcc])]
  have hdot : '.' ∈ (renderQ q).toList := by
    rw [hL]
    exact List.mem_append.mpr (Or.inr (List.mem_cons_self _ _))
  have htokens : ∀ tk ∈ tokensInvalidos, (renderQ q).toList ≠ tk := by
    have hno : ∀ tk ∈ tokensInvalidos, ¬ ('.' ∈ tk) := by decide
    intro tk htk heq
    exact hno tk htk (heq ▸ hdot)
  have hparse : parseFloat ((renderQ q).toList) = some q := by
    rw [hL]
    by_cases hm0 : m < 0
    · rw [if_pos hm0]
      show parseFloat ('-' :: (digs.take t ++ '.' :: fps)) = some q
      rw [parseFloat_neg, parsePos_digits (digs.take t) fps htakene hipc hfpc]
      rw [Option.map_some']
      rw [Option.some_inj, hval, cast_natAbs_of_neg m hm0, hq_eq]
      ring
    · rw [if_neg hm0]
      rw [List.nil_append]
      obtain ⟨ch, tl, hct⟩ := List.exists_cons_of_ne_nil htakene
      rw [hct, List.cons_append, parseFloat_cons_digit ch _ (hipc ch (hct ▸ List.mem_cons_self ch tl)),
        ← List.cons_append, ← hct]
      rw [parsePos_digits (digs.take t) fps htakene hipc hfpc]
      rw [Option.some_inj, hval, cast_natAbs_of_nonneg m (le_of_not_lt hm0), hq_eq]
  unfold limpaEParse
  dsimp only
  show (if tokensInvalidos.contains (limparCelula (renderQ q)) = true then none
      else parseFloat (limparCelula (renderQ q))) = some q
  rw [hclean, contains_eq_false_of _ _ htokens]
  rw [if_neg (by simp)]
  exact hparse

lemma filterMap_roundtrip {f : ℚ → Option ℚ} :
    ∀ (l : List ℚ), (∀ x ∈ l, f x = some x) → l.filterMap f = l
  | [], _ => rfl
  | x :: xs, h => by
    rw [List.filterMap_cons, h x (List.mem_cons_self x xs)]
    rw [filterMap_roundtrip xs (fun y hy => h y (List.mem_cons_of_mem _ hy))]

/-- A sanitized series handed back as a `DataFrame` column: the float cells
`astype(str)` will re-render. -/
def serieParaTabela (coluna : String) (serie : List ℚ) : Tabela :=
  [(coluna, serie.map Celula.num)]

lemma sanitizar_decimal (df : Tabela) (coluna : String) :
    ∀ x ∈ sanitizar_coluna df coluna, EhDecimal x := by
  intro x hx
  unfold sanitizar_coluna at hx
  split at hx
  · obtain ⟨cel, _, hp⟩ := List.mem_filterMap.mp hx
    exact limpaEParse_decimal cel x hp
  · exact absurd hx (List.not_mem_nil x)

/-- C7: sanitization is idempotent — sanitizing a column that already holds
the output of sanitization returns the identical series; no value is
altered and none is dropped. -/
theorem C7_idempotent (df : Tabela) (coluna : String) :
    sanitizar_coluna (serieParaTabela coluna (sanitizar_coluna df coluna)) coluna
      = sanitizar_coluna df coluna := by
  have hdec := sanitizar_decimal df coluna
  have htc : temColuna (serieParaTabela coluna (sanitizar_coluna df coluna)) coluna = true := by
    unfold temColuna serieParaTabela
    simp [List.lookup]
  have hcd : colunaDados (serieParaTabela coluna (sanitizar_coluna df coluna)) coluna
      = (sanitizar_coluna df coluna).map Celula.num := by
    unfold colunaDados serieParaTabela
    simp [List.lookup]
  rw [sanitizar_coluna, if_pos htc, hcd, List.filterMap_map]
  exact filterMap_roundtrip _ (fun x hx => limpaEParse_num_roundtrip x (hdec x hx))

example : sanitizar_coluna (serieParaTabela ("X") [40, 25/2, -(201/100)]) ("X")
    = [40, 25/2, -(201/100)] := by decide
